import Mathlib

/-!
# Verification of the BinkOS swap / staking / wallet-provider core

Shallow embedding of the quote-selection, transaction-pipeline, bounded-retry
and provider quote-store code of the BinkOS repository, together with proofs
about the properties stated in its specification.

Conventions of the embedding:
* JavaScript `bigint` values are modelled as `Int`, JavaScript numeric string
  values fed through `Number(...)` are modelled as exact rationals `ℚ`
  (the specification itself notes that the float normalisation is intended to
  denote the exact scaled magnitude).
* Strings are handled as `List Char` where the code manipulates them
  character-wise; `String` wrappers are provided with the source names.
* Asynchronous collaborator calls (chain RPC, wallet signing) are modelled by
  passing their observable results as explicit arguments; fallible code
  returns `Except`.
-/

set_option maxRecDepth 4000
set_option linter.unusedVariables false
set_option exponentiation.threshold 600

deriving instance DecidableEq for Except

/-! ## Digit-string arithmetic (model of `ethers.parseUnits`, ethers v6) -/

/-- Whether a character is an ASCII decimal digit. -/
def isDigitCh (c : Char) : Bool := decide ('0' ≤ c) && decide (c ≤ '9')

/-- Numeric value of a digit character. -/
def digitVal (c : Char) : Nat := c.toNat - '0'.toNat

/-- Value of a digit string read in base 10 (empty string reads as 0,
matching `BigInt("" ++ digits)` composition used by ethers). -/
def digitsToNat (l : List Char) : Nat := l.foldl (fun n c => 10 * n + digitVal c) 0

/-- Apply the sign recorded for a decimal string. -/
def applySign (neg : Bool) (v : Int) : Int := if neg then -v else v

/-- Strip one optional leading minus sign, returning (negative?, rest). -/
def splitSign : List Char → Bool × List Char
  | [] => (false, [])
  | c :: t => if c = '-' then (true, t) else (false, c :: t)

/-- Model of ethers v6 `FixedNumber`'s `checkValue` at the signed 512-bit
width that `parseUnits` uses: a value outside `[-(2^511), 2^511)` makes the
library throw a numeric-fault overflow error (`none` here); an in-range value
passes through unchanged. -/
def checkValue (v : Int) : Option Int :=
  if -(2 ^ 511) ≤ v ∧ v < 2 ^ 511 then some v else none

/-- Model of `ethers.parseUnits(value, decimals)` (ethers v6,
`FixedNumber.fromString` at width 512): the format requires
`decimals ≤ 80` (the `FixedFormat` bound); the string must match
`^(-?)([0-9]*)\.?([0-9]*)$` with at least one digit; fractional digits beyond
`decimals` are accepted only when they are all zeros (then dropped); the
scaled value `sign * (whole * 10^decimals + fraction padded to decimals)` is
range-checked by `checkValue` against the signed 512-bit width.
`none` models the library throwing. -/
def parseUnitsCore (neg : Bool) (rest : List Char) (decimals : Nat) : Option Int :=
  if 80 < decimals then none
  else
    match rest.splitOn '.' with
    | [w] =>
      if w.all isDigitCh && !w.isEmpty then
        checkValue (applySign neg ((digitsToNat w : Int) * 10 ^ decimals))
      else none
    | [w, f] =>
      if (w ++ f).all isDigitCh && !(w ++ f).isEmpty then
        if f.length ≤ decimals then
          checkValue (applySign neg ((digitsToNat w : Int) * 10 ^ decimals +
            (digitsToNat f : Int) * 10 ^ (decimals - f.length)))
        else if (f.drop decimals).all (fun c => c == '0') then
          checkValue (applySign neg ((digitsToNat w : Int) * 10 ^ decimals +
            (digitsToNat (f.take decimals) : Int)))
        else none
      else none
    | _ => none

/-- `parseUnits` on the full string: strip the optional sign, then parse. -/
def parseUnits (l : List Char) (decimals : Nat) : Option Int :=
  parseUnitsCore (splitSign l).1 (splitSign l).2 decimals

/-- The truncation step of `parseTokenAmount`: when the amount has a (single)
fractional part longer than `decimals`, the excess fractional characters are
cut off before parsing. -/
def truncateExcess (amount : List Char) (decimals : Nat) : List Char :=
  match amount.splitOn '.' with
  | [w, f] => if decimals < f.length then w ++ '.' :: f.take decimals else amount
  | _ => amount

/-- `parseTokenAmount` from the wallet utilities (`src/unnamed/part_000`):
returns 0 for an empty or `"0"` amount, truncates excess fractional digits
before calling `parseUnits`, and returns 0 whenever `parseUnits` throws. -/
def parseTokenAmountL (amount : List Char) (decimals : Nat) : Int :=
  if amount = [] ∨ amount = ['0'] then 0
  else (parseUnits (truncateExcess amount decimals) decimals).getD 0

/-- String-level wrapper for `parseTokenAmount`, keeping the source name. -/
def parseTokenAmount (amount : String) (decimals : Nat) : Int :=
  parseTokenAmountL amount.toList decimals

/-! Specification-side value of a decimal string, used to state what
`parseTokenAmount` computes. -/

/-- The exact rational value denoted by a decimal string, when it is well
formed (matches `^(-?)([0-9]*)\.?([0-9]*)$` with at least one digit);
`none` on every other string. -/
def decValueCore? (neg : Bool) (rest : List Char) : Option ℚ :=
  match rest.splitOn '.' with
  | [w] =>
    if w.all isDigitCh && !w.isEmpty then
      some ((if neg then -1 else 1) * (digitsToNat w : ℚ))
    else none
  | [w, f] =>
    if (w ++ f).all isDigitCh && !(w ++ f).isEmpty then
      some ((if neg then -1 else 1) *
        ((digitsToNat w : ℚ) + (digitsToNat f : ℚ) / 10 ^ f.length))
    else none
  | _ => none

/-- The denoted value on the full string, sign stripped first. -/
def decValue? (l : List Char) : Option ℚ :=
  decValueCore? (splitSign l).1 (splitSign l).2

/-- Truncation of a rational toward zero. -/
def truncQ (q : ℚ) : Int := if 0 ≤ q then ⌊q⌋ else ⌈q⌉


/-! ## Quote selection (`SwapTool.findBestQuote`) -/

/-- Whether the caller fixed the amount on the input or the output side. -/
inductive AmountType where
  | input
  | output
deriving DecidableEq, Repr

/-- The fields of a `SwapQuote` that `findBestQuote` compares, with the
`Number(...)` readings of the amount strings as exact rationals. -/
structure QuoteCmp where
  providerName : String
  fromAmount : ℚ
  fromDecimals : Nat
  toAmount : ℚ
  toDecimals : Nat
deriving DecidableEq, Repr

/-- `Math.floor(Number(quote.toAmount) * 10 ** quote.toToken.decimals)`. -/
def normToAmount (q : QuoteCmp) : Int := ⌊q.toAmount * 10 ^ q.toDecimals⌋

/-- `Math.floor(Number(quote.fromAmount) * 10 ** quote.fromToken.decimals)`. -/
def normFromAmount (q : QuoteCmp) : Int := ⌊q.fromAmount * 10 ^ q.fromDecimals⌋

/-- One step of the `validQuotes.reduce(...)` comparator in
`SwapTool.findBestQuote`.  For `input` it keeps the quote with the larger
floored scaled `toAmount`; for `output` the source compares the candidate's
scaled `fromAmount` against the incumbent's scaled `toAmount` (exactly as
written in the source). -/
def reduceStep (ty : AmountType) (best current : QuoteCmp) : QuoteCmp :=
  match ty with
  | .input => if normToAmount best < normToAmount current then current else best
  | .output => if normFromAmount current < normToAmount best then current else best

/-- The successful results of the quote fanout, in provider registration
order: `Promise.all` keeps the order and the `catch` inside each mapped call
turns a provider failure into `null`, here `Except.error` with the failure
reason. -/
def validQuotesOf (outcomes : List (Except String QuoteCmp)) : List QuoteCmp :=
  outcomes.filterMap (fun o => match o with | .ok q => some q | .error _ => none)

/-- `SwapTool.findBestQuote` after the fanout: fail when no call succeeded
(the thrown error is the fixed string `'No valid quotes found'`), otherwise
fold the comparator over the successes starting from the first one. -/
def findBestQuote (ty : AmountType) (outcomes : List (Except String QuoteCmp)) :
    Except String QuoteCmp :=
  match validQuotesOf outcomes with
  | [] => .error ("No valid quotes found")
  | q :: qs => .ok ((q :: qs).foldl (reduceStep ty) q)

/-! ## Transaction pipeline traces (`SwapTool.createTool`, `StakingTool.createTool`) -/

/-- Observable collaborator calls of the swap pipeline, in program order. -/
inductive SwapAction where
  | buildSwapTx
  | checkAllowanceCall
  | buildApproveTx
  | sendApproveTx
  | waitApproveConfirm
  | sendSwapTx
  | waitSwapConfirm
  | sendProviderTx
  | invalidateFromCache
  | invalidateToCache
deriving DecidableEq, Repr

/-- The sequence of collaborator calls performed by `SwapTool.createTool`'s
`func` from the build step onward, given the network, the allowance reported
by `checkAllowance` and the quote's `fromAmount`/`fromToken.decimals`.
The approval branch runs only off Solana/Hyperliquid; Hyperliquid sends
through the provider with the private key, every other network through
`wallet.signAndSendTransaction` followed by `receipt.wait()`. -/
def swapExecuteTrace (network : String) (allowance : Int) (fromAmount : String)
    (fromDecimals : Nat) : List SwapAction :=
  [SwapAction.buildSwapTx] ++
  (if network ≠ "solana" ∧ network ≠ "hyperliquid" then
    [SwapAction.checkAllowanceCall] ++
    (if allowance < parseTokenAmount fromAmount fromDecimals then
      [SwapAction.buildApproveTx, SwapAction.sendApproveTx, SwapAction.waitApproveConfirm]
    else [])
  else []) ++
  (if network = "hyperliquid" then [SwapAction.sendProviderTx]
   else [SwapAction.sendSwapTx, SwapAction.waitSwapConfirm]) ++
  [SwapAction.invalidateFromCache, SwapAction.invalidateToCache]

/-- Observable collaborator calls of the staking pipeline, in program order. -/
inductive StakingAction where
  | buildStakingTx
  | checkAllowanceCall
  | buildApproveTx
  | sendApproveTx
  | waitApproveConfirm
  | sendStakingTx
  | waitStakingConfirm
deriving DecidableEq, Repr

/-- The sequence of collaborator calls performed by `StakingTool.createTool`'s
`func` from the build step onward: allowance is always checked (spender is the
staking transaction's `to`), an approval is sent and awaited when it is below
`parseTokenAmount(quote.amountA, quote.tokenA.decimals)`, then the staking
transaction is sent and awaited. -/
def stakingExecuteTrace (allowance : Int) (amountA : String) (decimalsA : Nat) :
    List StakingAction :=
  [StakingAction.buildStakingTx, StakingAction.checkAllowanceCall] ++
  (if allowance < parseTokenAmount amountA decimalsA then
    [StakingAction.buildApproveTx, StakingAction.sendApproveTx,
     StakingAction.waitApproveConfirm]
  else []) ++
  [StakingAction.sendStakingTx, StakingAction.waitStakingConfirm]

/-! ## Post-execution tail of the swap pipeline (cache invalidation) -/

/-- Receipt returned by the confirmation wait of the swap transaction. -/
structure SwapReceipt where
  hash : String
deriving DecidableEq, Repr

/-- The result record returned by the swap tool on success. -/
structure SwapResultRecord where
  status : String
  provider : String
  fromAmount : String
  toAmount : String
  transactionHash : String
  network : String
deriving DecidableEq, Repr

/-- The `try { invalidateBalanceCache(from); invalidateBalanceCache(to) } catch`
block after a successful swap: a failure of the first call skips the second,
and every failure is swallowed (only logged). -/
def invalidateBalanceCaches (invFrom invTo : Except String Unit) : Unit :=
  match invFrom with
  | .error _ => ()
  | .ok _ =>
    match invTo with
    | .error _ => ()
    | .ok _ => ()

/-- The tail of `SwapTool.createTool`'s `func` from the execute step on: a
failed execution propagates its error to the outer handler; on success the
cache invalidations run inside their own try/catch and the success record is
returned with the receipt's hash. -/
def swapExecuteTail (execOutcome : Except String SwapReceipt)
    (invFrom invTo : Except String Unit)
    (providerName fromAmount toAmount network : String) :
    Except String SwapResultRecord :=
  match execOutcome with
  | .error e => .error e
  | .ok receipt =>
    let _ := invalidateBalanceCaches invFrom invTo
    .ok { status := "success", provider := providerName, fromAmount := fromAmount,
          toAmount := toAmount, transactionHash := receipt.hash, network := network }

/-! ## Bounded self-heal (`SwapTool.createTool` catch + `attemptTokenAddressFix`) -/

/-- The `ErrorStep` tags compared against in the catch handler. -/
inductive ErrStep where
  | token_not_found
  | token_validation
  | network_validation
  | provider_validation
deriving DecidableEq, Repr

/-- The observable shape of a thrown error: whether it is an `Error` instance,
its `step` tag when one is present, its message, and `details.tokenType` when
present. -/
structure ToolError where
  isErrorObject : Bool
  step : Option ErrStep
  message : String
  detailsTokenType : Option String
deriving DecidableEq, Repr

/-- The tool arguments the retry logic reads and rewrites
(`_attempt` is modelled as `attemptFlag`). -/
structure SwapArgs where
  network : String
  fromToken : String
  toToken : String
  attemptFlag : Bool
deriving DecidableEq, Repr

/-- Whether `pat` occurs as a contiguous substring, modelling
JavaScript `message.includes(pat)`. -/
def listHasSub (pat : List Char) : List Char → Bool
  | [] => pat.isEmpty
  | c :: t => pat.isPrefixOf (c :: t) || listHasSub pat t

/-- `s.includes(pat)` on strings. -/
def strIncludes (s pat : String) : Bool := listHasSub pat.toList s.toList

/-- The `isTokenValidationError` test in the catch handler of
`SwapTool.createTool`. -/
def isTokenValidationError (e : ToolError) : Bool :=
  (e.step == some ErrStep.token_validation) || (e.step == some ErrStep.token_not_found) ||
  strIncludes e.message ("Invalid fromToken address") ||
  strIncludes e.message ("Invalid toToken address")

/-- Whether the catch handler may inspect the error at all
(`error instanceof Error || 'step' in error`). -/
def isInspectableError (e : ToolError) : Bool := e.isErrorObject || e.step.isSome

/-- ASCII lowercasing of one character (`toLowerCase` on the symbols and
references involved, which are ASCII). -/
def lowerCh (c : Char) : Char :=
  if decide ('A' ≤ c) && decide (c ≤ 'Z') then Char.ofNat (c.toNat + 32) else c

/-- Lowercased character sequence of a string. -/
def lowerStr (s : String) : List Char := s.toList.map lowerCh

/-- First entry of the token table whose symbol matches `ref`
case-insensitively, returning its address — the loop over
`Object.entries(defaultTokens[network])` in `attemptTokenAddressFix`. -/
def lookupSymbolAddress (entries : List (String × String)) (ref : String) : Option String :=
  (entries.find? (fun p => lowerStr p.2 == lowerStr ref)).map (fun p => p.1)

/-- The corrected-address candidate for the from side: only searched when the
error names the fromToken. -/
def fromFixOf (entries : List (String × String)) (e : ToolError) (args : SwapArgs) :
    Option String :=
  if strIncludes e.message ("Invalid fromToken address") ||
      (e.detailsTokenType == some ("fromToken")) then
    lookupSymbolAddress entries args.fromToken
  else none

/-- The corrected-address candidate for the to side. -/
def toFixOf (entries : List (String × String)) (e : ToolError) (args : SwapArgs) :
    Option String :=
  if strIncludes e.message ("Invalid toToken address") ||
      (e.detailsTokenType == some ("toToken")) then
    lookupSymbolAddress entries args.toToken
  else none

/-- `foundCorrectAddress` in `attemptTokenAddressFix`. -/
def foundFix (entries : List (String × String)) (e : ToolError) (args : SwapArgs) : Bool :=
  (fromFixOf entries e args).isSome || (toFixOf entries e args).isSome

/-- `updatedArgs`: a copy of the arguments with `_attempt = true` and any
resolved addresses substituted. -/
def fixedArgs (entries : List (String × String)) (e : ToolError) (args : SwapArgs) :
    SwapArgs :=
  { network := args.network,
    fromToken := (fromFixOf entries e args).getD args.fromToken,
    toToken := (toFixOf entries e args).getD args.toToken,
    attemptFlag := true }

/-- The error built when the network has no token table. -/
def noTokenTableError (network : String) : ToolError :=
  { isErrorObject := true, step := some ErrStep.token_not_found,
    message := "No token information found for network " ++ network,
    detailsTokenType := none }

/-- The error built when no table symbol matches the offending reference. -/
def noSymbolMatchError : ToolError :=
  { isErrorObject := true, step := some ErrStep.token_not_found,
    message := "Could not find a valid address for the token symbol.",
    detailsTokenType := none }

/-- Result of one `func` invocation: either the success payload or an error
routed through `BaseTool.handleError` (kept structured here). -/
inductive RunResult where
  | success (payload : String)
  | handled (e : ToolError) (args : SwapArgs)
deriving DecidableEq, Repr

/-- `SwapTool.createTool().func` with its catch handler and
`attemptTokenAddressFix`: `run` is one underlying pipeline attempt
(quote, approval, execution), `tables` is the static `defaultTokens` lookup.
On a token-validation error with the attempt flag clear, the handler looks the
offending symbols up and re-runs the whole `func` once on the corrected
arguments (whose attempt flag is set); the `try` around the retry is dead code
because `func` never throws. -/
def runSwapToolFunc (run : SwapArgs → Except ToolError String)
    (tables : String → Option (List (String × String))) (args : SwapArgs) : RunResult :=
  match run args with
  | .ok s => .success s
  | .error e =>
    if h : (isInspectableError e && isTokenValidationError e && !args.attemptFlag) = true then
      match tables args.network with
      | none => .handled (noTokenTableError args.network) args
      | some entries =>
        if foundFix entries e args then
          runSwapToolFunc run tables (fixedArgs entries e args)
        else .handled noSymbolMatchError args
    else .handled e args
termination_by (if args.attemptFlag then 0 else 1)
decreasing_by
  simp only [fixedArgs, Bool.and_eq_true, Bool.not_eq_true'] at h ⊢
  simp [h.2]

/-- One pipeline attempt with no self-heal: success is returned, any error is
handed to `handleError` unchanged.  Stated from the spec's description of the
retried attempt, to compare with `runSwapToolFunc`. -/
def runSwapToolFuncOnce (run : SwapArgs → Except ToolError String) (args : SwapArgs) :
    RunResult :=
  match run args with
  | .ok s => .success s
  | .error e => .handled e args

/-! ## Provider quote stores (`SolanaProvider`, `FourMemeProvider`) -/

/-- JavaScript `Map.get`: the value stored under the first (unique) matching
key. -/
def mapGet {α : Type} : List (String × α) → String → Option α
  | [], _ => none
  | (k', v') :: t, k => if k' = k then some v' else mapGet t k

/-- JavaScript `Map.set`: replace the value under an existing key in place,
otherwise append the new binding in insertion order. -/
def mapSet {α : Type} : List (String × α) → String → α → List (String × α)
  | [], k, v => [(k, v)]
  | (k', v') :: t, k, v => if k' = k then (k, v) :: t else (k', v') :: mapSet t k v

/-- Token metadata as resolved by the Solana provider. -/
structure TokenS where
  address : String
  decimals : Nat
  symbol : String
deriving DecidableEq, Repr

/-- The transfer parameters handed to `SolanaProvider.getQuote`. -/
structure TransferParams where
  network : String
  token : String
  amount : String
  toAddress : String
deriving DecidableEq, Repr

/-- A `TransferQuote` as built by `SolanaProvider.getQuote`. -/
structure TransferQuote where
  network : String
  quoteId : String
  token : TokenS
  fromAddress : String
  toAddress : String
  amount : String
  estimatedGas : String
deriving DecidableEq, Repr

/-- A quote-store entry: the quote and its expiry instant
(`Date.now() + QUOTE_EXPIRY`). -/
structure StoredTransferQuote where
  quote : TransferQuote
  expiresAt : Int
deriving DecidableEq, Repr

/-- The provider's `quotes` map. -/
abbrev SolQuoteStore : Type := List (String × StoredTransferQuote)

/-- The transaction descriptor returned by
`SolanaProvider.buildTransferTransaction`. -/
structure SolTransaction where
  «to» : String
  data : String
  value : String
  network : String
  lastValidBlockHeight : Nat
deriving DecidableEq, Repr

namespace SolanaProvider

/-- `QUOTE_EXPIRY`: 10 minutes in milliseconds. -/
def QUOTE_EXPIRY : Int := 600000

/-- The quote record built by `SolanaProvider.getQuote`. -/
def mkQuote (quoteId : String) (token : TokenS) (adjustedAmount : String)
    (params : TransferParams) (walletAddress : String) : TransferQuote :=
  { network := params.network, quoteId := quoteId, token := token,
    fromAddress := walletAddress, toAddress := params.toAddress,
    amount := adjustedAmount, estimatedGas := "5000" }

/-- `SolanaProvider.getQuote`: after network validation it builds the quote
with a freshly drawn random id and stores it with expiry `now + 10min`.
The chain-dependent steps (token metadata resolution and the native-amount
adjustment) are passed in as their observable results `token` and
`adjustedAmount`; `quoteId` is the value drawn from `Math.random`. -/
def getQuote (quoteId : String) (now : Int) (token : TokenS) (adjustedAmount : String)
    (params : TransferParams) (walletAddress : String) (store : SolQuoteStore) :
    Except String (TransferQuote × SolQuoteStore) :=
  if params.network ≠ "solana" then
    .error ("Network " ++ params.network ++ " is not supported by solana")
  else
    let quote := mkQuote quoteId token adjustedAmount params walletAddress
    .ok (quote, mapSet store quoteId { quote := quote, expiresAt := now + QUOTE_EXPIRY })

/-- `SolanaProvider.buildTransferTransaction`: validate the network, parse the
amount, reject a missing or expired stored quote (`expiresAt < Date.now()`),
reject a sender mismatch, then build the transfer.  The chain interaction
(blockhash fetch and instruction serialisation) is abstracted by the
`serializedTx` and `lastValidBlockHeight` oracle arguments. -/
def buildTransferTransaction (store : SolQuoteStore) (quote : TransferQuote)
    (walletAddress : String) (now : Int) (serializedTx : String)
    (lastValidBlockHeight : Nat) : Except String SolTransaction :=
  if quote.network ≠ "solana" then
    .error ("Network " ++ quote.network ++ " is not supported by solana")
  else
    let amount := parseTokenAmount quote.amount quote.token.decimals
    match mapGet store quote.quoteId with
    | none => .error ("Quote expired or invalid")
    | some stored =>
      if stored.expiresAt < now then .error ("Quote expired or invalid")
      else if quote.fromAddress ≠ walletAddress then
        .error ("Quote sender does not match wallet address")
      else
        .ok { «to» := quote.toAddress, data := serializedTx, value := toString amount,
              network := quote.network, lastValidBlockHeight := lastValidBlockHeight }

end SolanaProvider

/-- One `getQuote` call of a sequence: the random draw, the clock reading and
the oracle results for that call. -/
structure SolQuoteCall where
  randId : String
  now : Int
  token : TokenS
  adjustedAmount : String
  params : TransferParams
  walletAddress : String
deriving DecidableEq, Repr

/-- A sequence of `SolanaProvider.getQuote` calls threaded through the quote
store, collecting each call's outcome. -/
def runGetQuotes : List SolQuoteCall → SolQuoteStore →
    List (Except String TransferQuote) × SolQuoteStore
  | [], store => ([], store)
  | c :: cs, store =>
    match SolanaProvider.getQuote c.randId c.now c.token c.adjustedAmount c.params
        c.walletAddress store with
    | .ok (q, store') =>
      let rest := runGetQuotes cs store'
      (.ok q :: rest.1, rest.2)
    | .error e =>
      let rest := runGetQuotes cs store
      (.error e :: rest.1, rest.2)

/-- Transaction descriptor returned by `FourMemeProvider.buildSwapTransaction`. -/
structure FMTx where
  «to» : String
  data : String
  value : String
  gasLimit : String
deriving DecidableEq, Repr

/-- The fields of a FourMeme `SwapQuote` relevant to building: the id and the
prebuilt transaction payload. -/
structure FMQuote where
  quoteId : String
  fromToken : String
  toToken : String
  fromAmount : String
  toAmount : String
  tx : FMTx
deriving DecidableEq, Repr

/-- A FourMeme quote-store entry (`{ quote, expiresAt }`). -/
structure StoredFMQuote where
  quote : FMQuote
  expiresAt : Int
deriving DecidableEq, Repr

/-- The FourMeme provider's `quotes` map. -/
abbrev FMQuoteStore : Type := List (String × StoredFMQuote)

namespace FourMemeProvider

/-- `QUOTE_EXPIRY`: 5 minutes in milliseconds. -/
def QUOTE_EXPIRY : Int := 300000

/-- `FourMemeProvider.buildSwapTransaction`: looks the stored quote up by id
and returns its prebuilt transaction payload.  The source checks neither the
stored `expiresAt` nor the `userAddress` argument. -/
def buildSwapTransaction (store : FMQuoteStore) (quote : FMQuote)
    (userAddress : String) : Except String FMTx :=
  match mapGet store quote.quoteId with
  | none => .error ("Quote expired or not found. Please get a new quote.")
  | some stored =>
    .ok { «to» := stored.quote.tx.«to», data := stored.quote.tx.data,
          value := stored.quote.tx.value, gasLimit := "350000" }

end FourMemeProvider

/-! ## Concrete fixtures used by witnesses, failing-input evaluations and
counterexamples -/

/-- A FourMeme prebuilt transaction payload. -/
def fmTxC : FMTx :=
  { «to» := "0x5c952063c7fc8610FFDB798152D69F0B9550762b", data := "0xcafe", value := "0",
    gasLimit := "350000" }

/-- A FourMeme quote with id `q1`. -/
def fmQuoteC : FMQuote :=
  { quoteId := "q1", fromToken := "0xfrom", toToken := "0xto", fromAmount := "1",
    toAmount := "0", tx := fmTxC }

/-- A FourMeme quote store holding `q1`, issued at time 0 with the 5-minute
TTL, hence `expiresAt = 300000`. -/
def fmStoreC : FMQuoteStore := [("q1", { quote := fmQuoteC, expiresAt := 300000 })]

/-- A Solana token. -/
def solTokenC : TokenS := { address := "So1111", decimals := 9, symbol := "SOL" }

/-- A Solana transfer quote originated by `addr1` with id `s1`. -/
def solQuoteC : TransferQuote :=
  { network := "solana", quoteId := "s1", token := solTokenC, fromAddress := "addr1",
    toAddress := "addr2", amount := "1", estimatedGas := "5000" }

/-- A Solana quote store holding `s1`, issued at time 0 with the 10-minute
TTL, hence `expiresAt = 600000`. -/
def solStoreC : SolQuoteStore := [("s1", { quote := solQuoteC, expiresAt := 600000 })]


/-- A quote with output amount 100 at 6 decimals. -/
def qInA : QuoteCmp :=
  { providerName := "provider-a", fromAmount := 1, fromDecimals := 6, toAmount := 100,
    toDecimals := 6 }

/-- A quote with output amount 99 at 6 decimals. -/
def qInB : QuoteCmp :=
  { providerName := "provider-b", fromAmount := 1, fromDecimals := 6, toAmount := 99,
    toDecimals := 6 }

/-- The BNB token table restricted to the BINK entry of `defaultTokens`. -/
def tokenTableBnbC : List (String × String) :=
  [("0x5fdfafd107fc267bd6d6b1c08fcafb8d31394ba1", "BINK")]

/-- A `defaultTokens` lookup knowing only the `bnb` network. -/
def tablesC : String → Option (List (String × String)) :=
  fun n => if n = "bnb" then some tokenTableBnbC else none

/-- The structured error thrown for an invalid fromToken reference. -/
def invalidFromErrC : ToolError :=
  { isErrorObject := true, step := some ErrStep.token_not_found,
    message := "Invalid fromToken address for network bnb: XYZ",
    detailsTokenType := some ("fromToken") }

/-- Arguments whose fromToken is a symbol unknown to the table. -/
def argsXYZC : SwapArgs :=
  { network := "bnb", fromToken := "XYZ", toToken := "0xcafe", attemptFlag := false }

/-- Arguments whose fromToken is the BINK symbol (resolvable). -/
def argsBINKC : SwapArgs :=
  { network := "bnb", fromToken := "bink", toToken := "0xcafe", attemptFlag := false }

/-- An underlying attempt that always fails with the fromToken error. -/
def failRunC : SwapArgs → Except ToolError String := fun _ => .error invalidFromErrC

/-- First Solana getQuote call, drawing random id `a`, transferring to
`addrX`. -/
def solCall1C : SolQuoteCall :=
  { randId := "a", now := 0, token := solTokenC, adjustedAmount := "1",
    params := { network := "solana", token := "So1111", amount := "1",
                toAddress := "addrX" },
    walletAddress := "addrW" }

/-- Second Solana getQuote call, drawing random id `a` again, transferring to
`addrY`. -/
def solCall2C : SolQuoteCall :=
  { randId := "a", now := 1000, token := solTokenC, adjustedAmount := "2",
    params := { network := "solana", token := "So1111", amount := "2",
                toAddress := "addrY" },
    walletAddress := "addrW" }

/-- A Solana getQuote call drawing the distinct random id `b`. -/
def solCall3C : SolQuoteCall :=
  { randId := "b", now := 1000, token := solTokenC, adjustedAmount := "2",
    params := { network := "solana", token := "So1111", amount := "2",
                toAddress := "addrY" },
    walletAddress := "addrW" }

/-! # Theorems -/

/-- C8: after the primary transaction executes successfully, errors of the
post-success `invalidateBalanceCache` calls are swallowed by their try/catch,
so the returned record still has status `success` and the receipt's hash; an
execution failure, by contrast, propagates. -/
theorem invalidate_cache_nonfatal :
    ∀ (invFrom invTo : Except String Unit) (r : SwapReceipt)
      (p fa ta n m : String),
      swapExecuteTail (.ok r) invFrom invTo p fa ta n =
        .ok { status := "success", provider := p, fromAmount := fa, toAmount := ta,
              transactionHash := r.hash, network := n } ∧
      swapExecuteTail (.error m) invFrom invTo p fa ta n = .error m := by
  intro invFrom invTo r p fa ta n m
  exact ⟨rfl, rfl⟩

/-- C1: in the swap pipeline (off Solana/Hyperliquid) and in the staking
pipeline, an allowance below the parsed required amount leads to exactly one
approval transaction whose confirmation is awaited before the primary
transaction is sent, and an allowance at or above the required amount leads to
zero approval transactions. -/
theorem approval_gating_swap_and_staking :
    ∀ (network : String) (allowanceS allowanceK : Int) (fromAmount : String)
      (fromDecimals : Nat) (amountA : String) (decimalsA : Nat),
      (network ≠ "solana" → network ≠ "hyperliquid" →
        ((allowanceS < parseTokenAmount fromAmount fromDecimals →
          (swapExecuteTrace network allowanceS fromAmount fromDecimals).count
              SwapAction.sendApproveTx = 1 ∧
          (swapExecuteTrace network allowanceS fromAmount fromDecimals).indexOf
              SwapAction.waitApproveConfirm <
            (swapExecuteTrace network allowanceS fromAmount fromDecimals).indexOf
              SwapAction.sendSwapTx) ∧
        (parseTokenAmount fromAmount fromDecimals ≤ allowanceS →
          (swapExecuteTrace network allowanceS fromAmount fromDecimals).count
              SwapAction.sendApproveTx = 0))) ∧
      ((allowanceK < parseTokenAmount amountA decimalsA →
          (stakingExecuteTrace allowanceK amountA decimalsA).count
              StakingAction.sendApproveTx = 1 ∧
          (stakingExecuteTrace allowanceK amountA decimalsA).indexOf
              StakingAction.waitApproveConfirm <
            (stakingExecuteTrace allowanceK amountA decimalsA).indexOf
              StakingAction.sendStakingTx) ∧
        (parseTokenAmount amountA decimalsA ≤ allowanceK →
          (stakingExecuteTrace allowanceK amountA decimalsA).count
              StakingAction.sendApproveTx = 0)) := by
  intro network allowanceS allowanceK fromAmount fromDecimals amountA decimalsA
  refine ⟨fun h1 h2 => ⟨fun hlt => ?_, fun hge => ?_⟩, ⟨fun hlt => ?_, fun hge => ?_⟩⟩
  · have ht : swapExecuteTrace network allowanceS fromAmount fromDecimals =
        [SwapAction.buildSwapTx, SwapAction.checkAllowanceCall, SwapAction.buildApproveTx,
         SwapAction.sendApproveTx, SwapAction.waitApproveConfirm, SwapAction.sendSwapTx,
         SwapAction.waitSwapConfirm, SwapAction.invalidateFromCache,
         SwapAction.invalidateToCache] := by
      rw [swapExecuteTrace, if_pos ⟨h1, h2⟩, if_pos hlt, if_neg h2]
      rfl
    rw [ht]
    exact ⟨by decide, by decide⟩
  · have ht : swapExecuteTrace network allowanceS fromAmount fromDecimals =
        [SwapAction.buildSwapTx, SwapAction.checkAllowanceCall, SwapAction.sendSwapTx,
         SwapAction.waitSwapConfirm, SwapAction.invalidateFromCache,
         SwapAction.invalidateToCache] := by
      rw [swapExecuteTrace, if_pos ⟨h1, h2⟩, if_neg (not_lt.mpr hge), if_neg h2]
      rfl
    rw [ht]
    decide
  · have ht : stakingExecuteTrace allowanceK amountA decimalsA =
        [StakingAction.buildStakingTx, StakingAction.checkAllowanceCall,
         StakingAction.buildApproveTx, StakingAction.sendApproveTx,
         StakingAction.waitApproveConfirm, StakingAction.sendStakingTx,
         StakingAction.waitStakingConfirm] := by
      rw [stakingExecuteTrace, if_pos hlt]
      rfl
    rw [ht]
    exact ⟨by decide, by decide⟩
  · have ht : stakingExecuteTrace allowanceK amountA decimalsA =
        [StakingAction.buildStakingTx, StakingAction.checkAllowanceCall,
         StakingAction.sendStakingTx, StakingAction.waitStakingConfirm] := by
      rw [stakingExecuteTrace, if_neg (not_lt.mpr hge)]
      rfl
    rw [ht]
    decide

/-- Witness for `approval_gating_swap_and_staking` on the `bnb` network with a
zero allowance against a required amount of 1 (swap, one approval) and an
allowance of 5 against a required amount of 2 (stake, no approval). -/
theorem approval_gating_swap_and_staking_witness :
    (swapExecuteTrace ("bnb") 0 ("1") 0).count SwapAction.sendApproveTx = 1 ∧
    (stakingExecuteTrace 5 ("2") 0).count StakingAction.sendApproveTx = 0 := by
  have h := approval_gating_swap_and_staking ("bnb") 0 5 ("1") 0 ("2") 0
  exact ⟨((h.1 (by decide) (by decide)).1 (by decide)).1, h.2.2 (by decide)⟩

/-- C2: failing-input evaluation.  With `amountType = output` and two
successful quotes — the first with input amount 5 (and output amount 1), the
second with input amount 2 — `findBestQuote` keeps the first quote even though
the second has the strictly smaller normalized input amount, because the
source compares the candidate's scaled `fromAmount` against the incumbent's
scaled `toAmount` instead of its `fromAmount`. -/
theorem findBestQuote_output_selects_larger_input :
    findBestQuote AmountType.output
        [.ok { providerName := "provider-a", fromAmount := 5, fromDecimals := 0,
               toAmount := 1, toDecimals := 0 },
         .ok { providerName := "provider-b", fromAmount := 2, fromDecimals := 0,
               toAmount := 9, toDecimals := 0 }] =
      .ok { providerName := "provider-a", fromAmount := 5, fromDecimals := 0,
            toAmount := 1, toDecimals := 0 } ∧
    normFromAmount { providerName := "provider-b", fromAmount := 2, fromDecimals := 0,
                     toAmount := 9, toDecimals := 0 } <
      normFromAmount { providerName := "provider-a", fromAmount := 5, fromDecimals := 0,
                       toAmount := 1, toDecimals := 0 } := by
  constructor
  · show Except.ok (reduceStep AmountType.output (reduceStep AmountType.output _ _) _) = _
    rw [reduceStep, reduceStep]
    rw [if_neg (by rw [normFromAmount, normToAmount]; norm_num),
        if_neg (by rw [normFromAmount, normToAmount]; norm_num)]
  · rw [normFromAmount, normFromAmount]
    norm_num

/-- C6: failing-input evaluation.  `FourMemeProvider.buildSwapTransaction`
returns the stored transaction payload for quote `q1` although its stored
expiry is 300000 (issued at 0 with the 5-minute TTL) — the function never
reads the clock nor the stored `expiresAt`, so the build also succeeds at
time 300001 and later.  `SolanaProvider.buildTransferTransaction` likewise
still builds at `now = expiresAt` exactly, because it only rejects
`expiresAt < now`. -/
theorem build_succeeds_at_or_after_expiry :
    FourMemeProvider.buildSwapTransaction fmStoreC fmQuoteC ("0xuser") =
      .ok { «to» := "0x5c952063c7fc8610FFDB798152D69F0B9550762b", data := "0xcafe",
            value := "0", gasLimit := "350000" } ∧
    SolanaProvider.buildTransferTransaction solStoreC solQuoteC ("addr1") 600000
        ("serializedtx") 7 =
      .ok { «to» := "addr2", data := "serializedtx", value := "1000000000",
            network := "solana", lastValidBlockHeight := 7 } := by
  constructor
  · decide
  · decide

/-- C7 (amended): the Solana provider rejects a build whose wallet address
differs from the quote's recorded originator (given a stored, unexpired
quote), while the FourMeme provider performs no sender check at all: for any
stored quote it returns the prebuilt payload whatever the wallet address. -/
theorem build_sender_binding :
    (∀ (store : SolQuoteStore) (q : TransferQuote) (wallet : String) (now : Int)
      (ser : String) (lvb : Nat) (st : StoredTransferQuote),
      q.network = "solana" → mapGet store q.quoteId = some st → ¬ st.expiresAt < now →
      q.fromAddress ≠ wallet →
      SolanaProvider.buildTransferTransaction store q wallet now ser lvb =
        .error ("Quote sender does not match wallet address")) ∧
    (∀ (store : FMQuoteStore) (q : FMQuote) (user : String) (st : StoredFMQuote),
      mapGet store q.quoteId = some st →
      FourMemeProvider.buildSwapTransaction store q user =
        .ok { «to» := st.quote.tx.«to», data := st.quote.tx.data,
              value := st.quote.tx.value, gasLimit := "350000" }) := by
  constructor
  · intro store q wallet now ser lvb st hnet hget hexp hsender
    rw [SolanaProvider.buildTransferTransaction, if_neg (by simp [hnet]), hget]
    simp [hexp, hsender]
  · intro store q user st hget
    rw [FourMemeProvider.buildSwapTransaction, hget]

/-- Witness for `build_sender_binding`: the stored Solana quote `s1`
originated by `addr1` is rejected for wallet `addrX`, and the stored FourMeme
quote `q1` builds for wallet `0xwhoever`. -/
theorem build_sender_binding_witness :
    SolanaProvider.buildTransferTransaction solStoreC solQuoteC ("addrX") 0
        ("ser") 1 = .error ("Quote sender does not match wallet address") ∧
    FourMemeProvider.buildSwapTransaction fmStoreC fmQuoteC ("0xwhoever") =
      .ok { «to» := fmTxC.«to», data := fmTxC.data, value := fmTxC.value,
            gasLimit := "350000" } := by
  constructor
  · exact build_sender_binding.1 solStoreC solQuoteC ("addrX") 0 ("ser") 1
      { quote := solQuoteC, expiresAt := 600000 } (by decide) (by decide) (by decide)
      (by decide)
  · exact build_sender_binding.2 fmStoreC fmQuoteC ("0xwhoever")
      { quote := fmQuoteC, expiresAt := 300000 } (by decide)

/-- C7: counterexample.  The same stored FourMeme quote builds successfully
for two different wallet addresses, so at least one of these builds is
performed for a wallet that is not the quote's originator, yet no
sender-mismatch error occurs and the transaction is built. -/
theorem fourmeme_build_any_sender :
    FourMemeProvider.buildSwapTransaction fmStoreC fmQuoteC ("0xalice") =
      .ok { «to» := "0x5c952063c7fc8610FFDB798152D69F0B9550762b", data := "0xcafe",
            value := "0", gasLimit := "350000" } ∧
    FourMemeProvider.buildSwapTransaction fmStoreC fmQuoteC ("0xbob") =
      .ok { «to» := "0x5c952063c7fc8610FFDB798152D69F0B9550762b", data := "0xcafe",
            value := "0", gasLimit := "350000" } ∧
    ("0xalice" : String) ≠ "0xbob" := by
  exact ⟨by decide, by decide, by decide⟩

/-- The comparator fold keeps either the incumbent or the candidate. -/
theorem reduceStep_eq_or (ty : AmountType) (b c : QuoteCmp) :
    reduceStep ty b c = b ∨ reduceStep ty b c = c := by
  cases ty <;> rw [reduceStep] <;> split <;> simp

/-- The result of folding the comparator is one of the folded quotes. -/
theorem foldl_reduceStep_mem (ty : AmountType) :
    ∀ (l : List QuoteCmp) (a : QuoteCmp), l.foldl (reduceStep ty) a ∈ a :: l := by
  intro l
  induction l with
  | nil => intro a; simp
  | cons c t ih =>
    intro a
    rw [List.foldl_cons]
    rcases reduceStep_eq_or ty a c with he | he <;> rw [he]
    · have h := ih a
      simp only [List.mem_cons] at h ⊢
      tauto
    · have h := ih c
      simp only [List.mem_cons] at h ⊢
      tauto

/-- C4 (amended): the quote fanout is isolated against individual provider
failures — the result is computed from the successful outcomes only, a winner
drawn from the successes is returned whenever at least one call succeeded, and
only when zero calls succeed does the call fail, with the fixed error message
`'No valid quotes found'` (the per-provider reasons are logged but not carried
on the thrown error). -/
theorem findBestQuote_partial_failure_isolation :
    ∀ (ty : AmountType) (outcomes : List (Except String QuoteCmp)),
      (validQuotesOf outcomes = [] →
        findBestQuote ty outcomes = .error ("No valid quotes found")) ∧
      (validQuotesOf outcomes ≠ [] →
        ∃ r, findBestQuote ty outcomes = .ok r ∧ r ∈ validQuotesOf outcomes) := by
  intro ty outcomes
  constructor
  · intro h
    rw [findBestQuote, h]
  · intro h
    rcases hv : validQuotesOf outcomes with _ | ⟨q, qs⟩
    · exact absurd hv h
    · refine ⟨(q :: qs).foldl (reduceStep ty) q, ?_, ?_⟩
      · rw [findBestQuote, hv]
      · have hm := foldl_reduceStep_mem ty (q :: qs) q
        simp only [List.mem_cons] at hm ⊢
        tauto

/-- Witness for `findBestQuote_partial_failure_isolation`: two providers throw
and one succeeds, and a winner is still returned from among the successes. -/
theorem findBestQuote_partial_failure_isolation_witness :
    ∃ r, findBestQuote AmountType.input
        [.error ("provider one timed out"),
         .ok { providerName := "provider-two", fromAmount := 1, fromDecimals := 6,
               toAmount := 3, toDecimals := 6 },
         .error ("provider three rate limited")] = .ok r ∧
      r ∈ validQuotesOf
        [.error ("provider one timed out"),
         .ok { providerName := "provider-two", fromAmount := 1, fromDecimals := 6,
               toAmount := 3, toDecimals := 6 },
         .error ("provider three rate limited")] :=
  (findBestQuote_partial_failure_isolation AmountType.input _).2 (by decide)

/-- C4: counterexample to the reason-carrying part of the claim.  When all
providers fail, the thrown error is the constant string
`'No valid quotes found'`, identical for different per-provider failure
reasons and not containing them. -/
theorem findBestQuote_error_drops_reasons :
    findBestQuote AmountType.input [.error ("provider timeout")] =
      .error ("No valid quotes found") ∧
    findBestQuote AmountType.input [.error ("rate limited")] =
      .error ("No valid quotes found") ∧
    ("provider timeout" : String) ≠ "No valid quotes found" := by
  exact ⟨rfl, rfl, by decide⟩

/-- Folding the `input` comparator returns the first quote attaining the
maximal floored scaled output amount: the fold result splits the folded list
into a strictly-smaller prefix, itself, and a no-larger remainder. -/
theorem foldl_input_first_max :
    ∀ (l : List QuoteCmp) (a : QuoteCmp),
      ∃ l₁ l₂, a :: l = l₁ ++ (l.foldl (reduceStep AmountType.input) a) :: l₂ ∧
        (∀ x ∈ l₁,
          normToAmount x < normToAmount (l.foldl (reduceStep AmountType.input) a)) ∧
        (∀ x ∈ a :: l,
          normToAmount x ≤ normToAmount (l.foldl (reduceStep AmountType.input) a)) := by
  intro l
  induction l with
  | nil =>
    intro a
    exact ⟨[], [], rfl, by simp, by simp⟩
  | cons c t ih =>
    intro a
    rw [List.foldl_cons]
    by_cases hac : normToAmount a < normToAmount c
    · have hb : reduceStep AmountType.input a c = c := by rw [reduceStep, if_pos hac]
      rw [hb]
      obtain ⟨m₁, m₂, hsplit, hpre, hmax⟩ := ih c
      refine ⟨a :: m₁, m₂, by rw [List.cons_append, ← hsplit], ?_, ?_⟩
      · intro x hx
        rcases List.mem_cons.mp hx with hx | hx
        · subst hx
          exact lt_of_lt_of_le hac (hmax c (List.mem_cons_self c t))
        · exact hpre x hx
      · intro x hx
        rcases List.mem_cons.mp hx with hx | hx
        · subst hx
          exact le_of_lt (lt_of_lt_of_le hac (hmax c (List.mem_cons_self c t)))
        · exact hmax x hx
    · have hb : reduceStep AmountType.input a c = a := by rw [reduceStep, if_neg hac]
      rw [hb]
      obtain ⟨m₁, m₂, hsplit, hpre, hmax⟩ := ih a
      rcases m₁ with _ | ⟨a', m₁'⟩
      · simp only [List.nil_append] at hsplit
        have hra : t.foldl (reduceStep AmountType.input) a = a := (List.cons.injEq _ _ _ _ ▸ hsplit).1.symm
        refine ⟨[], c :: t, by simp [hra], by simp, ?_⟩
        intro x hx
        rcases List.mem_cons.mp hx with hx | hx
        · subst hx; rw [hra]
        · rcases List.mem_cons.mp hx with hx | hx
          · subst hx
            rw [hra]
            exact le_of_not_lt hac
          · exact hmax x (List.mem_cons.mpr (Or.inr hx))
      · have ha' : a' = a ∧ t = m₁' ++ (t.foldl (reduceStep AmountType.input) a) :: m₂ := by
          rw [List.cons_append] at hsplit
          exact ⟨((List.cons.injEq _ _ _ _).mp hsplit).1.symm,
                 ((List.cons.injEq _ _ _ _).mp hsplit).2⟩
        have haR : normToAmount a < normToAmount (t.foldl (reduceStep AmountType.input) a) := by
          have := hpre a' (List.mem_cons_self a' m₁')
          rw [ha'.1] at this
          exact this
        refine ⟨a :: c :: m₁', m₂, ?_, ?_, ?_⟩
        · rw [List.cons_append, List.cons_append, ← ha'.2]
        · intro x hx
          rcases List.mem_cons.mp hx with hx | hx
          · subst hx; exact haR
          · rcases List.mem_cons.mp hx with hx | hx
            · subst hx
              exact lt_of_le_of_lt (le_of_not_lt hac) haR
            · exact hpre x (ha'.1 ▸ List.mem_cons.mpr (Or.inr hx))
        · intro x hx
          rcases List.mem_cons.mp hx with hx | hx
          · subst hx; exact le_of_lt haR
          · rcases List.mem_cons.mp hx with hx | hx
            · subst hx
              exact le_trans (le_of_not_lt hac) (le_of_lt haR)
            · exact hmax x (List.mem_cons.mpr (Or.inr hx))

/-- C3: for `amountType = input`, `findBestQuote` selects the quote whose
floored scaled output amount (`Math.floor(Number(toAmount) * 10 **
toToken.decimals)`) is maximal among the successful quotes, and among equals
the first-encountered one in provider registration order: every success
before the winner is strictly smaller, every success is no larger. -/
theorem findBestQuote_input_first_max :
    ∀ (outcomes : List (Except String QuoteCmp)) (r : QuoteCmp),
      findBestQuote AmountType.input outcomes = .ok r →
      ∃ l₁ l₂, validQuotesOf outcomes = l₁ ++ r :: l₂ ∧
        (∀ x ∈ l₁, normToAmount x < normToAmount r) ∧
        (∀ x ∈ validQuotesOf outcomes, normToAmount x ≤ normToAmount r) := by
  intro outcomes r hr
  rcases hv : validQuotesOf outcomes with _ | ⟨q, qs⟩
  · rw [findBestQuote, hv] at hr
    exact absurd hr (by simp)
  · rw [findBestQuote, hv] at hr
    have hr' : Except.ok ((q :: qs).foldl (reduceStep AmountType.input) q) =
        (Except.ok r : Except String QuoteCmp) := hr
    have hfold : (q :: qs).foldl (reduceStep AmountType.input) q =
        qs.foldl (reduceStep AmountType.input) q := by
      rw [List.foldl_cons, reduceStep, ite_self]
    rw [hfold] at hr'
    have hrw : qs.foldl (reduceStep AmountType.input) q = r := by
      injection hr'
    obtain ⟨l₁, l₂, hsplit, hpre, hmax⟩ := foldl_input_first_max qs q
    rw [hrw] at hsplit hpre hmax
    exact ⟨l₁, l₂, hsplit, hpre, hmax⟩

/-- Witness for `findBestQuote_input_first_max`: with provider A quoting
`toAmount = 100` at 6 decimals and provider B quoting `toAmount = 99` at 6
decimals, A is selected, so B's normalized output is no larger than A's. -/
theorem findBestQuote_input_first_max_witness :
    normToAmount qInB ≤ normToAmount qInA := by
  have hsel : findBestQuote AmountType.input [.ok qInA, .ok qInB] = .ok qInA := by
    show Except.ok (reduceStep AmountType.input (reduceStep AmountType.input qInA qInA) qInB)
        = _
    have hinner : reduceStep AmountType.input qInA qInA = qInA := by
      rw [reduceStep, ite_self]
    rw [hinner, reduceStep,
        if_neg (by rw [normToAmount, normToAmount, qInA, qInB]; norm_num)]
  obtain ⟨l₁, l₂, hs, hp, hmax⟩ := findBestQuote_input_first_max _ _ hsel
  refine hmax qInB ?_
  have : validQuotesOf [.ok qInA, .ok qInB] = [qInA, qInB] := rfl
  rw [this]
  simp

/-- Unfolding `runSwapToolFunc` when the attempt errors and the guard
(inspectable token-validation error with a clear attempt flag) is false: the
error is handed over unchanged. -/
theorem runSwapToolFunc_guard_false (run : SwapArgs → Except ToolError String)
    (tables : String → Option (List (String × String))) (args : SwapArgs) (e : ToolError)
    (hrun : run args = .error e)
    (hguard : (isInspectableError e && isTokenValidationError e && !args.attemptFlag)
      = false) :
    runSwapToolFunc run tables args = .handled e args := by
  rw [runSwapToolFunc, hrun]
  simp [hguard]

/-- Unfolding `runSwapToolFunc` when the guard holds but the network has no
token table. -/
theorem runSwapToolFunc_guard_true_none (run : SwapArgs → Except ToolError String)
    (tables : String → Option (List (String × String))) (args : SwapArgs) (e : ToolError)
    (hrun : run args = .error e)
    (hguard : (isInspectableError e && isTokenValidationError e && !args.attemptFlag)
      = true)
    (htab : tables args.network = none) :
    runSwapToolFunc run tables args = .handled (noTokenTableError args.network) args := by
  rw [runSwapToolFunc, hrun]
  simp only [dif_pos hguard, htab]

/-- Unfolding `runSwapToolFunc` when the guard holds and a token table exists:
the fix is retried exactly when a symbol matched, otherwise the fresh
`noSymbolMatchError` is handed over. -/
theorem runSwapToolFunc_guard_true_some (run : SwapArgs → Except ToolError String)
    (tables : String → Option (List (String × String))) (args : SwapArgs) (e : ToolError)
    (entries : List (String × String))
    (hrun : run args = .error e)
    (hguard : (isInspectableError e && isTokenValidationError e && !args.attemptFlag)
      = true)
    (htab : tables args.network = some entries) :
    runSwapToolFunc run tables args =
      if foundFix entries e args then runSwapToolFunc run tables (fixedArgs entries e args)
      else .handled noSymbolMatchError args := by
  rw [runSwapToolFunc, hrun]
  simp only [dif_pos hguard, htab]

/-- With the attempt flag set, `runSwapToolFunc` performs exactly one
underlying attempt: it coincides with the retry-free `runSwapToolFuncOnce`. -/
theorem runSwapToolFunc_flag_true_eq_once (run : SwapArgs → Except ToolError String)
    (tables : String → Option (List (String × String))) (args : SwapArgs)
    (hflag : args.attemptFlag = true) :
    runSwapToolFunc run tables args = runSwapToolFuncOnce run args := by
  rw [runSwapToolFunc, runSwapToolFuncOnce]
  cases hrun : run args with
  | ok s => rfl
  | error e =>
    have hguard : (isInspectableError e && isTokenValidationError e && !args.attemptFlag)
        = false := by simp [hflag]
    simp [hguard]

/-- C5 (amended): the self-heal retry is bounded to depth 1.  When an attempt
fails with an inspectable token-validation error and the attempt flag is
clear: with a case-insensitive symbol match in the network's token table the
whole attempt is re-run exactly once on the corrected arguments with the flag
set — the rerun equals the retry-free single attempt, so a recurring error on
it triggers no further retry; with no match a fresh token-not-found error
(`'Could not find a valid address for the token symbol.'`) is surfaced; with
no table for the network a fresh no-table error is surfaced.  When the flag is
already set, or the error is not a token-validation error, the original error
is surfaced unchanged without retry. -/
theorem runSwapToolFunc_bounded_retry :
    ∀ (run : SwapArgs → Except ToolError String)
      (tables : String → Option (List (String × String))) (args : SwapArgs)
      (e : ToolError),
      run args = .error e →
      (args.attemptFlag = true → runSwapToolFunc run tables args = .handled e args) ∧
      (args.attemptFlag = false →
        ((isInspectableError e && isTokenValidationError e) = false →
          runSwapToolFunc run tables args = .handled e args) ∧
        ((isInspectableError e && isTokenValidationError e) = true →
          (tables args.network = none →
            runSwapToolFunc run tables args =
              .handled (noTokenTableError args.network) args) ∧
          (∀ entries, tables args.network = some entries →
            (foundFix entries e args = false →
              runSwapToolFunc run tables args = .handled noSymbolMatchError args) ∧
            (foundFix entries e args = true →
              (fixedArgs entries e args).attemptFlag = true ∧
              runSwapToolFunc run tables args =
                runSwapToolFuncOnce run (fixedArgs entries e args))))) := by
  intro run tables args e hrun
  constructor
  · intro hflag
    exact runSwapToolFunc_guard_false run tables args e hrun (by simp [hflag])
  · intro hflag
    constructor
    · intro hchk
      exact runSwapToolFunc_guard_false run tables args e hrun (by simp [hchk])
    · intro hchk
      constructor
      · intro htab
        exact runSwapToolFunc_guard_true_none run tables args e hrun
          (by simp [hchk, hflag]) htab
      · intro entries htab
        have hsome := runSwapToolFunc_guard_true_some run tables args e entries hrun
          (by simp [hchk, hflag]) htab
        constructor
        · intro hff
          rw [hsome, if_neg (by simp [hff])]
        · intro hff
          refine ⟨rfl, ?_⟩
          rw [hsome, if_pos hff]
          exact runSwapToolFunc_flag_true_eq_once run tables (fixedArgs entries e args) rfl

/-- Witness for `runSwapToolFunc_bounded_retry`: a failing attempt on
fromToken symbol `bink` over the BNB table resolves the BINK address, re-runs
once with the attempt flag set, and the rerun is the retry-free attempt. -/
theorem runSwapToolFunc_bounded_retry_witness :
    (fixedArgs tokenTableBnbC invalidFromErrC argsBINKC).attemptFlag = true ∧
    runSwapToolFunc failRunC tablesC argsBINKC =
      runSwapToolFuncOnce failRunC (fixedArgs tokenTableBnbC invalidFromErrC argsBINKC) := by
  have h := runSwapToolFunc_bounded_retry failRunC tablesC argsBINKC invalidFromErrC rfl
  exact (((h.2 rfl).2 (by decide)).2 tokenTableBnbC rfl).2 (by decide)

/-- C5: counterexample.  When the offending symbol (`XYZ`) matches nothing in
the table, the surfaced error is the freshly created
`'Could not find a valid address for the token symbol.'` error, not the
original structured error. -/
theorem runSwapToolFunc_no_match_new_error :
    runSwapToolFunc failRunC tablesC argsXYZC =
      RunResult.handled noSymbolMatchError argsXYZC ∧
    noSymbolMatchError.message ≠ invalidFromErrC.message := by
  constructor
  · have h := runSwapToolFunc_guard_true_some failRunC tablesC argsXYZC invalidFromErrC
      tokenTableBnbC rfl (by decide) rfl
    rw [h, if_neg (by decide)]
  · decide

/-- `Map.set` then `Map.get` on the same key yields the new value. -/
theorem mapGet_mapSet_eq {α : Type} (m : List (String × α)) (k : String) (v : α) :
    mapGet (mapSet m k v) k = some v := by
  induction m with
  | nil => simp [mapGet, mapSet]
  | cons p t ih =>
    obtain ⟨a, b⟩ := p
    by_cases hp : a = k
    · rw [mapSet, if_pos hp, mapGet, if_pos rfl]
    · rw [mapSet, if_neg hp, mapGet, if_neg hp]
      exact ih

/-- `Map.set` leaves other keys untouched. -/
theorem mapGet_mapSet_ne {α : Type} (m : List (String × α)) (k k' : String) (v : α)
    (h : k' ≠ k) : mapGet (mapSet m k' v) k = mapGet m k := by
  induction m with
  | nil => simp [mapGet, mapSet, h]
  | cons p t ih =>
    obtain ⟨a, b⟩ := p
    by_cases hp : a = k'
    · rw [mapSet, if_pos hp, mapGet, if_neg h, mapGet, if_neg (hp ▸ h ∘ Eq.symm ∘ Eq.symm)]
    · rw [mapSet, if_neg hp, mapGet, mapGet]
      by_cases hak : a = k
      · rw [if_pos hak, if_pos hak]
      · rw [if_neg hak, if_neg hak]
        exact ih

/-- `Map.set` with a fresh key appends it to the key sequence. -/
theorem mapSet_keys_of_not_mem {α : Type} (m : List (String × α)) (k : String) (v : α)
    (h : k ∉ m.map Prod.fst) :
    (mapSet m k v).map Prod.fst = m.map Prod.fst ++ [k] := by
  induction m with
  | nil => rfl
  | cons p t ih =>
    obtain ⟨a, b⟩ := p
    simp only [List.map_cons, List.mem_cons] at h
    push_neg at h
    rw [mapSet, if_neg (fun hc => h.1 hc.symm)]
    simp only [List.map_cons, List.cons_append]
    rw [ih h.2]

/-- A key drawn by none of the calls keeps its binding through a sequence of
`getQuote` calls. -/
theorem runGetQuotes_preserve (idKey : String) :
    ∀ (calls : List SolQuoteCall) (store : SolQuoteStore),
      idKey ∉ calls.map (fun c => c.randId) →
      mapGet (runGetQuotes calls store).2 idKey = mapGet store idKey := by
  intro calls
  induction calls with
  | nil => intro store _; rfl
  | cons c cs ih =>
    intro store hni
    simp only [List.map_cons, List.mem_cons] at hni
    push_neg at hni
    by_cases hn : c.params.network = "solana"
    · have hq : SolanaProvider.getQuote c.randId c.now c.token c.adjustedAmount c.params
          c.walletAddress store =
          .ok (SolanaProvider.mkQuote c.randId c.token c.adjustedAmount c.params
                 c.walletAddress,
               mapSet store c.randId
                 { quote := SolanaProvider.mkQuote c.randId c.token c.adjustedAmount
                     c.params c.walletAddress,
                   expiresAt := c.now + SolanaProvider.QUOTE_EXPIRY }) := by
        rw [SolanaProvider.getQuote, if_neg (by simp [hn])]
      rw [runGetQuotes, hq]
      rw [ih _ hni.2, mapGet_mapSet_ne _ _ _ _ (fun hc => hni.1 hc.symm)]
    · have hq : SolanaProvider.getQuote c.randId c.now c.token c.adjustedAmount c.params
          c.walletAddress store =
          .error ("Network " ++ c.params.network ++ " is not supported by solana") := by
        rw [SolanaProvider.getQuote, if_pos hn]
      rw [runGetQuotes, hq]
      exact ih _ hni.2

/-- C9 (amended): quote ids are taken verbatim from the randomness source with
no uniqueness check, so whenever the drawn ids are pairwise distinct and fresh
with respect to the store, every call issues a quote carrying its own draw as
id and the store maps each id to exactly that call's quote with its expiry. -/
theorem runGetQuotes_fresh_ids :
    ∀ (calls : List SolQuoteCall) (store₀ : SolQuoteStore),
      (∀ c ∈ calls, c.params.network = "solana") →
      ((store₀.map Prod.fst) ++ calls.map (fun c => c.randId)).Nodup →
      (runGetQuotes calls store₀).1 =
        calls.map (fun c => .ok (SolanaProvider.mkQuote c.randId c.token c.adjustedAmount
          c.params c.walletAddress)) ∧
      ∀ c ∈ calls, mapGet (runGetQuotes calls store₀).2 c.randId =
        some { quote := SolanaProvider.mkQuote c.randId c.token c.adjustedAmount c.params
                 c.walletAddress,
               expiresAt := c.now + SolanaProvider.QUOTE_EXPIRY } := by
  intro calls
  induction calls with
  | nil => intro store₀ _ _; exact ⟨rfl, by simp⟩
  | cons c cs ih =>
    intro store₀ hall hnd
    have hn : c.params.network = "solana" := hall c (List.mem_cons_self c cs)
    set entry : StoredTransferQuote :=
      { quote := SolanaProvider.mkQuote c.randId c.token c.adjustedAmount c.params
          c.walletAddress,
        expiresAt := c.now + SolanaProvider.QUOTE_EXPIRY } with hentry
    have hq : SolanaProvider.getQuote c.randId c.now c.token c.adjustedAmount c.params
        c.walletAddress store₀ =
        .ok (SolanaProvider.mkQuote c.randId c.token c.adjustedAmount c.params
              c.walletAddress, mapSet store₀ c.randId entry) := by
      rw [SolanaProvider.getQuote, if_neg (by simp [hn])]
    simp only [List.map_cons] at hnd
    rcases List.nodup_append.mp hnd with ⟨hnd₀, hnd₁, hdisj⟩
    have hfresh : c.randId ∉ store₀.map Prod.fst :=
      fun hk => hdisj hk (List.mem_cons_self _ _)
    have hni : c.randId ∉ cs.map (fun x => x.randId) := (List.nodup_cons.mp hnd₁).1
    have hnd' : (((mapSet store₀ c.randId entry).map Prod.fst) ++
        cs.map (fun x => x.randId)).Nodup := by
      rw [mapSet_keys_of_not_mem _ _ _ hfresh, List.append_assoc, List.singleton_append]
      exact hnd
    obtain ⟨ih1, ih2⟩ := ih (mapSet store₀ c.randId entry)
      (fun x hx => hall x (List.mem_cons.mpr (Or.inr hx))) hnd'
    constructor
    · rw [runGetQuotes, hq]
      show (Except.ok (SolanaProvider.mkQuote c.randId c.token c.adjustedAmount c.params
          c.walletAddress) :: (runGetQuotes cs (mapSet store₀ c.randId entry)).1) = _
      rw [ih1, List.map_cons]
    · intro x hx
      rcases List.mem_cons.mp hx with hx | hx
      · subst hx
        rw [runGetQuotes, hq]
        show mapGet (runGetQuotes cs (mapSet store₀ x.randId entry)).2 x.randId = _
        have hp := runGetQuotes_preserve x.randId cs (mapSet store₀ x.randId entry) hni
        rw [hp, mapGet_mapSet_eq]
      · rw [runGetQuotes, hq]
        show mapGet (runGetQuotes cs (mapSet store₀ c.randId entry)).2 x.randId = _
        exact ih2 x hx

/-- Witness for `runGetQuotes_fresh_ids`: two calls drawing the distinct ids
`a` and `b` from an empty store each leave their own quote bound to their own
id. -/
theorem runGetQuotes_fresh_ids_witness :
    mapGet (runGetQuotes [solCall1C, solCall3C] []).2 ("a") =
      some { quote := SolanaProvider.mkQuote ("a") solTokenC ("1") solCall1C.params
               ("addrW"),
             expiresAt := 0 + SolanaProvider.QUOTE_EXPIRY } := by
  have h := runGetQuotes_fresh_ids [solCall1C, solCall3C] [] (by decide) (by decide)
  exact h.2 solCall1C (by simp)

/-- C9: counterexample.  Two `getQuote` calls whose random draws collide on
`a` issue two different quotes under the same id: the second `Map.set`
overwrites the first, so the issued id `a` is reused as the key of a
different quote. -/
theorem runGetQuotes_id_collision :
    (runGetQuotes [solCall1C, solCall2C] []).1 =
      [.ok { network := "solana", quoteId := "a", token := solTokenC,
             fromAddress := "addrW", toAddress := "addrX", amount := "1",
             estimatedGas := "5000" },
       .ok { network := "solana", quoteId := "a", token := solTokenC,
             fromAddress := "addrW", toAddress := "addrY", amount := "2",
             estimatedGas := "5000" }] ∧
    (runGetQuotes [solCall1C, solCall2C] []).2 =
      [("a", { quote := { network := "solana", quoteId := "a", token := solTokenC,
                          fromAddress := "addrW", toAddress := "addrY", amount := "2",
                          estimatedGas := "5000" },
               expiresAt := 601000 })] ∧
    ({ network := "solana", quoteId := "a", token := solTokenC, fromAddress := "addrW",
       toAddress := "addrX", amount := "1", estimatedGas := "5000" } : TransferQuote) ≠
      { network := "solana", quoteId := "a", token := solTokenC, fromAddress := "addrW",
        toAddress := "addrY", amount := "2", estimatedGas := "5000" } := by
  exact ⟨by decide, by decide, by decide⟩

/-- Folding digits from an arbitrary accumulator. -/
theorem digitsToNat_go :
    ∀ (l : List Char) (n : Nat),
      List.foldl (fun n c => 10 * n + digitVal c) n l = n * 10 ^ l.length + digitsToNat l := by
  intro l
  induction l with
  | nil => intro n; simp [digitsToNat]
  | cons c t ih =>
    intro n
    have h2 : digitsToNat (c :: t) = digitVal c * 10 ^ t.length + digitsToNat t := by
      rw [digitsToNat, List.foldl_cons, ih (10 * 0 + digitVal c)]
      ring_nf
    rw [List.foldl_cons, ih (10 * n + digitVal c), h2, List.length_cons, pow_succ]
    ring

/-- Reading one more digit in front. -/
theorem digitsToNat_cons (c : Char) (t : List Char) :
    digitsToNat (c :: t) = digitVal c * 10 ^ t.length + digitsToNat t := by
  rw [digitsToNat, List.foldl_cons, digitsToNat_go]
  ring_nf

/-- Base-10 reading of a concatenation. -/
theorem digitsToNat_append (a b : List Char) :
    digitsToNat (a ++ b) = digitsToNat a * 10 ^ b.length + digitsToNat b := by
  rw [digitsToNat, List.foldl_append, digitsToNat_go]
  rfl

/-- A digit character's value is at most 9. -/
theorem digitVal_le_nine (c : Char) (h : isDigitCh c = true) : digitVal c ≤ 9 := by
  rw [isDigitCh, Bool.and_eq_true, decide_eq_true_iff, decide_eq_true_iff] at h
  have h9 : c.toNat ≤ 57 := h.2
  rw [digitVal]
  have hb : Char.toNat '0' = 48 := rfl
  rw [hb]
  omega

/-- A digit string reads below `10 ^ length`. -/
theorem digitsToNat_lt (l : List Char) (h : l.all isDigitCh = true) :
    digitsToNat l < 10 ^ l.length := by
  induction l with
  | nil => simp [digitsToNat]
  | cons c t ih =>
    rw [List.all_cons, Bool.and_eq_true] at h
    have hc := digitVal_le_nine c h.1
    have ht := ih h.2
    rw [digitsToNat_cons, List.length_cons, pow_succ]
    calc digitVal c * 10 ^ t.length + digitsToNat t
        < digitVal c * 10 ^ t.length + 10 ^ t.length := Nat.add_lt_add_left ht _
      _ = (digitVal c + 1) * 10 ^ t.length := by ring
      _ ≤ 10 * 10 ^ t.length := Nat.mul_le_mul_right _ (by omega)
      _ = 10 ^ t.length * 10 := by ring

/-- Digits are not the dot separator. -/
theorem isDigitCh_ne_dot (c : Char) (h : isDigitCh c = true) : ¬((c == '.') = true) := by
  intro hb
  rw [beq_iff_eq] at hb
  subst hb
  exact absurd h (by decide)

/-- A pure digit string splits into itself. -/
theorem splitOn_digits (l : List Char) (h : l.all isDigitCh = true) :
    l.splitOn '.' = [l] := by
  apply List.splitOnP_eq_single
  intro x hx
  exact isDigitCh_ne_dot x (by rw [List.all_eq_true] at h; exact h x hx)

/-- Splitting a digit string, a dot, and a remainder. -/
theorem splitOn_digits_dot (w f : List Char) (hw : w.all isDigitCh = true) :
    (w ++ '.' :: f).splitOn '.' = w :: f.splitOn '.' := by
  apply List.splitOnP_first
  · intro x hx
    exact isDigitCh_ne_dot x (by rw [List.all_eq_true] at hw; exact hw x hx)
  · rfl

/-- Splitting after a leading minus sign. -/
theorem splitOn_cons_dash (l : List Char) :
    ('-' :: l).splitOn '.' = (l.splitOn '.').modifyHead (List.cons '-') := by
  rw [List.splitOn, List.splitOnP_cons]
  rfl

/-- A string splitting into a single part is that part. -/
theorem splitOn_eq_single_imp (r w : List Char) (h : r.splitOn '.' = [w]) : r = w := by
  have hi := List.intercalate_splitOn r '.'
  rw [h] at hi
  simpa [List.intercalate] using hi.symm

/-- A string splitting into two parts is their dot-joined concatenation. -/
theorem splitOn_eq_pair_imp (r w f : List Char) (h : r.splitOn '.' = [w, f]) :
    r = w ++ '.' :: f := by
  have hi := List.intercalate_splitOn r '.'
  rw [h] at hi
  simpa [List.intercalate] using hi.symm

/-- A true sign component means the string starts with a minus. -/
theorem splitSign_true_imp (l : List Char) (r : List Char)
    (h : splitSign l = (true, r)) : l = '-' :: r := by
  cases l with
  | nil => exact absurd h (by simp [splitSign])
  | cons c t =>
    rw [splitSign] at h
    by_cases hc : c = '-'
    · rw [if_pos hc] at h
      have := (Prod.mk.injEq _ _ _ _ ▸ h)
      simp only [Prod.mk.injEq, true_and] at h
      rw [hc, h]
    · rw [if_neg hc] at h
      simp at h

/-- A false sign component means the string was left untouched. -/
theorem splitSign_false_imp (l : List Char) (r : List Char)
    (h : splitSign l = (false, r)) : l = r := by
  cases l with
  | nil =>
    rw [splitSign] at h
    simp only [Prod.mk.injEq, true_and] at h
    rw [h]
  | cons c t =>
    rw [splitSign] at h
    by_cases hc : c = '-'
    · rw [if_pos hc] at h
      simp at h
    · rw [if_neg hc] at h
      simp only [Prod.mk.injEq, true_and] at h
      rw [h]

/-- Truncation toward zero of an integer is itself. -/
theorem truncQ_intCast (n : Int) : truncQ ((n : ℚ)) = n := by
  by_cases h : 0 ≤ ((n : ℚ))
  · rw [truncQ, if_pos h, Int.floor_intCast]
  · rw [truncQ, if_neg h, Int.ceil_intCast]

/-- Truncation toward zero commutes with negation. -/
theorem truncQ_neg (q : ℚ) : truncQ (-q) = -truncQ q := by
  rcases lt_trichotomy q 0 with h | h | h
  · rw [truncQ, if_pos (le_of_lt (neg_pos.mpr h)), truncQ, if_neg (not_le.mpr h),
      Int.floor_neg]
  · subst h
    simp [truncQ]
  · rw [truncQ, if_neg (not_le.mpr (neg_neg_iff_pos.mpr h)), truncQ, if_pos (le_of_lt h),
      Int.ceil_neg]

/-- Truncating a natural number plus a fractional part drops the fraction. -/
theorem truncQ_natAdd_frac (A : Nat) (r : ℚ) (h0 : 0 ≤ r) (h1 : r < 1) :
    truncQ ((A : ℚ) + r) = (A : Int) := by
  have hge : 0 ≤ ((A : ℚ)) + r := by positivity
  rw [truncQ, if_pos hge, add_comm, Int.floor_add_nat, Int.floor_eq_zero_iff.mpr ⟨h0, h1⟩,
    zero_add]

/-- Digits are not the minus sign. -/
theorem isDigitCh_ne_dash (c : Char) (h : isDigitCh c = true) : c ≠ '-' := by
  intro hc
  subst hc
  exact absurd h (by decide)

/-- `splitSign` on a string not starting with a minus. -/
theorem splitSign_cons_ne (c : Char) (t : List Char) (hc : c ≠ '-') :
    splitSign (c :: t) = (false, c :: t) := by
  rw [splitSign, if_neg hc]

/-- `splitSign` on a string starting with the minus sign. -/
theorem splitSign_dash (t : List Char) : splitSign ('-' :: t) = (true, t) := by
  rw [splitSign, if_pos rfl]

/-- `checkValue` accepts a signed magnitude strictly below the width bound. -/
theorem checkValue_applySign (neg : Bool) (m : Int) (h0 : 0 ≤ m)
    (hov : m < 2 ^ 511) :
    checkValue (applySign neg m) = some (applySign neg m) := by
  have hpos : (0 : Int) < 2 ^ 511 := by positivity
  cases neg
  · rw [applySign, if_neg (by simp), checkValue,
      if_pos ⟨le_trans (neg_nonpos.mpr (le_of_lt hpos)) h0, hov⟩]
  · rw [applySign, if_pos rfl, checkValue,
      if_pos ⟨neg_le_neg (le_of_lt hov), lt_of_le_of_lt (neg_nonpos.mpr h0) hpos⟩]

/-- Decimal counts beyond the 80-place `FixedFormat` bound are rejected. -/
theorem parseUnitsCore_decimals_gt (neg : Bool) (rest : List Char) (d : Nat)
    (h : 80 < d) : parseUnitsCore neg rest d = none := by
  rw [parseUnitsCore, if_pos h]

/-- The magnitude of a signed product is the magnitude of its body. -/
theorem abs_sgnMul (neg : Bool) (x : ℚ) :
    |(if neg then (-1 : ℚ) else 1) * x| = |x| := by
  cases neg <;> simp

/-- Evaluation of the core parser on a pure digit string within bounds. -/
theorem parseUnitsCore_nodot (neg : Bool) (w : List Char) (d : Nat)
    (hw : w.all isDigitCh = true) (hne : w ≠ []) (hd80 : d ≤ 80)
    (hov : (digitsToNat w : Int) * 10 ^ d < 2 ^ 511) :
    parseUnitsCore neg w d = some (applySign neg ((digitsToNat w : Int) * 10 ^ d)) := by
  rw [parseUnitsCore, if_neg (not_lt.mpr hd80), splitOn_digits w hw]
  have hcond : (w.all isDigitCh && !w.isEmpty) = true := by
    simp [hw, hne]
  show (if (w.all isDigitCh && !w.isEmpty) = true then
      checkValue (applySign neg ((digitsToNat w : Int) * 10 ^ d)) else none) = _
  rw [if_pos hcond, checkValue_applySign neg _ (by positivity) hov]

/-- Evaluation of the core parser on a digits-dot-digits string whose
fraction fits in the declared decimals and whose value is within bounds. -/
theorem parseUnitsCore_dot (neg : Bool) (w f : List Char) (d : Nat)
    (hw : w.all isDigitCh = true) (hf : f.all isDigitCh = true)
    (hne : w ++ f ≠ []) (hld : f.length ≤ d) (hd80 : d ≤ 80)
    (hov : (digitsToNat w : Int) * 10 ^ d +
      (digitsToNat f : Int) * 10 ^ (d - f.length) < 2 ^ 511) :
    parseUnitsCore neg (w ++ '.' :: f) d =
      some (applySign neg ((digitsToNat w : Int) * 10 ^ d +
        (digitsToNat f : Int) * 10 ^ (d - f.length))) := by
  rw [parseUnitsCore, if_neg (not_lt.mpr hd80), splitOn_digits_dot w f hw,
    splitOn_digits f hf]
  have hcond : ((w ++ f).all isDigitCh && !(w ++ f).isEmpty) = true := by
    simp only [List.all_append, hw, hf, Bool.and_self, Bool.true_and]
    simp [hne]
  show (if ((w ++ f).all isDigitCh && !(w ++ f).isEmpty) = true then
      if f.length ≤ d then
        checkValue (applySign neg ((digitsToNat w : Int) * 10 ^ d +
          (digitsToNat f : Int) * 10 ^ (d - f.length)))
      else if ((f.drop d).all (fun c => c == '0')) = true then
        checkValue (applySign neg ((digitsToNat w : Int) * 10 ^ d +
          (digitsToNat (f.take d) : Int)))
      else none
    else none) = _
  rw [if_pos hcond, if_pos hld, checkValue_applySign neg _ (by positivity) hov]

/-- A single-part split means no truncation happens. -/
theorem truncateExcess_of_single (l x : List Char) (d : Nat)
    (h : l.splitOn '.' = [x]) : truncateExcess l d = l := by
  rw [truncateExcess, h]

/-- A two-part split exposes the truncation condition. -/
theorem truncateExcess_of_pair (l w f : List Char) (d : Nat)
    (h : l.splitOn '.' = [w, f]) :
    truncateExcess l d = if d < f.length then w ++ '.' :: f.take d else l := by
  rw [truncateExcess, h]

/-- Truncating a signed integer magnitude. -/
theorem truncQ_sgn_intCast (neg : Bool) (n : Int) :
    truncQ ((if neg then (-1 : ℚ) else 1) * (n : ℚ)) = applySign neg n := by
  cases neg
  · rw [if_neg (by simp), one_mul, truncQ_intCast, applySign, if_neg (by simp)]
  · rw [if_pos rfl, applySign, if_pos rfl, neg_one_mul, truncQ_neg, truncQ_intCast]

/-- Truncating a signed magnitude `A + r` with `0 ≤ r < 1` keeps `±A`. -/
theorem truncQ_sgn_natAdd_frac (neg : Bool) (A : Nat) (r : ℚ) (h0 : 0 ≤ r) (h1 : r < 1) :
    truncQ ((if neg then (-1 : ℚ) else 1) * ((A : ℚ) + r)) = applySign neg (A : Int) := by
  cases neg
  · rw [if_neg (by simp), one_mul, truncQ_natAdd_frac A r h0 h1, applySign,
      if_neg (by simp)]
  · rw [if_pos rfl, applySign, if_pos rfl, neg_one_mul, truncQ_neg,
      truncQ_natAdd_frac A r h0 h1]

/-- `splitSign` leaves a digit string untouched. -/
theorem splitSign_digits (w : List Char) (hw : w.all isDigitCh = true) :
    splitSign w = (false, w) := by
  cases w with
  | nil => rfl
  | cons c t =>
    rw [List.all_cons, Bool.and_eq_true] at hw
    exact splitSign_cons_ne c t (isDigitCh_ne_dash c hw.1)

/-- `splitSign` leaves a dot-led string untouched. -/
theorem splitSign_dotlead (f : List Char) : splitSign ('.' :: f) = (false, '.' :: f) :=
  splitSign_cons_ne '.' f (by decide)

/-- C10 (amended): `parseTokenAmount` is total and returns: 0 for the empty
string and for `"0"`; 0 for every input that still fails to parse after the
truncation step (this includes the signed 512-bit overflow throw of ethers
`FixedNumber`, which the `catch` maps to 0); 0 whenever `decimals` exceeds
the 80-place `FixedFormat` bound; and for every well-formed decimal string
with `decimals ≤ 80` whose magnitude scaled by `10^decimals` stays below
`2^511`, the exact value scaled by `10^decimals` and truncated toward zero
(excess fractional digits are cut off before scaling).  Inputs that are
unparseable as a whole but whose offending characters sit beyond the
truncation point are repaired by the truncation rather than mapped to 0. -/
theorem parseTokenAmount_value_semantics :
    (∀ d, parseTokenAmount ("") d = 0) ∧
    (∀ d, parseTokenAmount ("0") d = 0) ∧
    (∀ (l : List Char) (d : Nat), parseUnits (truncateExcess l d) d = none →
      parseTokenAmountL l d = 0) ∧
    (∀ (l : List Char) (d : Nat), 80 < d → parseTokenAmountL l d = 0) ∧
    (∀ (l : List Char) (d : Nat) (q : ℚ), decValue? l = some q → d ≤ 80 →
      |q| * 10 ^ d < 2 ^ 511 →
      parseTokenAmountL l d = truncQ (q * 10 ^ d)) := by
  refine ⟨?_, ?_, ?_, ?_, ?_⟩
  · intro d
    show parseTokenAmountL [] d = 0
    rw [parseTokenAmountL, if_pos (Or.inl rfl)]
  · intro d
    show parseTokenAmountL ['0'] d = 0
    rw [parseTokenAmountL, if_pos (Or.inr rfl)]
  · intro l d hnone
    rw [parseTokenAmountL]
    by_cases h0 : l = [] ∨ l = ['0']
    · rw [if_pos h0]
    · rw [if_neg h0, hnone]
      rfl
  · intro l d hd
    rw [parseTokenAmountL]
    by_cases h0 : l = [] ∨ l = ['0']
    · rw [if_pos h0]
    · rw [if_neg h0, parseUnits, parseUnitsCore_decimals_gt _ _ d hd]
      rfl
  · intro l d q hq hd80 hbound
    have habs10 : |q| * 10 ^ d = |q * 10 ^ d| := by
      rw [abs_mul, abs_pow]
      norm_num
    rcases hsr : splitSign l with ⟨neg, rest⟩
    rw [decValue?, hsr] at hq
    change decValueCore? neg rest = some q at hq
    rcases hsp : rest.splitOn '.' with _ | ⟨w, _ | ⟨f, _ | ⟨g, rest4⟩⟩⟩
    · rw [decValueCore?, hsp] at hq
      change (none : Option ℚ) = some q at hq
      exact absurd hq (by simp)
    · -- shape [w] : a pure digit string
      rw [decValueCore?, hsp] at hq
      change (if (w.all isDigitCh && !w.isEmpty) = true then
        some ((if neg then (-1 : ℚ) else 1) * (digitsToNat w : ℚ)) else none) = some q at hq
      by_cases hcond : (w.all isDigitCh && !w.isEmpty) = true
      swap
      · rw [if_neg hcond] at hq
        exact absurd hq (by simp)
      rw [if_pos hcond] at hq
      have hqv : q = (if neg then (-1 : ℚ) else 1) * (digitsToNat w : ℚ) :=
        (Option.some.inj hq).symm
      rw [Bool.and_eq_true] at hcond
      have hw := hcond.1
      have hne : w ≠ [] := by
        intro h0
        rw [h0] at hcond
        exact absurd hcond.2 (by decide)
      have hrw : rest = w := splitOn_eq_single_imp rest w hsp
      have hsr2 : splitSign l = (neg, w) := by rw [hsr, hrw]
      have hval : q * 10 ^ d = (if neg then (-1 : ℚ) else 1) *
          (((digitsToNat w : Int) * 10 ^ d : Int) : ℚ) := by
        rw [hqv]
        push_cast
        ring
      have hXnn : (0 : Int) ≤ (digitsToNat w : Int) * 10 ^ d := by positivity
      have hm : (digitsToNat w : Int) * 10 ^ d < 2 ^ 511 := by
        have h1 : |q * 10 ^ d| = (((digitsToNat w : Int) * 10 ^ d : Int) : ℚ) := by
          rw [hval, abs_sgnMul, abs_of_nonneg (by exact_mod_cast hXnn)]
        rw [habs10, h1] at hbound
        exact_mod_cast hbound
      rw [hval, truncQ_sgn_intCast]
      cases neg with
      | true =>
        have hl : l = '-' :: w := splitSign_true_imp l w hsr2
        subst hl
        have hne0 : ¬(('-' :: w : List Char) = [] ∨ ('-' :: w : List Char) = ['0']) := by
          rintro (h0 | h0)
          · exact List.cons_ne_nil _ _ h0
          · rw [List.cons.injEq] at h0
            exact absurd h0.1 (by decide)
        rw [parseTokenAmountL, if_neg hne0]
        have hsl : ('-' :: w).splitOn '.' = ['-' :: w] := by
          rw [splitOn_cons_dash, splitOn_digits w hw]
          rfl
        rw [truncateExcess_of_single _ _ d hsl, parseUnits, hsr2]
        change (parseUnitsCore true w d).getD 0 = _
        rw [parseUnitsCore_nodot true w d hw hne hd80 hm, Option.getD_some]
      | false =>
        have hl : l = w := splitSign_false_imp l w hsr2
        rw [hl]
        have hsr3 : splitSign w = (false, w) := hl ▸ hsr2
        by_cases h0 : w = ['0']
        · subst h0
          rw [parseTokenAmountL, if_pos (Or.inr rfl)]
          rw [applySign, if_neg (by simp)]
          have hz : digitsToNat ['0'] = 0 := by decide
          rw [hz]
          push_cast
          ring
        · rw [parseTokenAmountL, if_neg (by rintro (h1 | h1); exacts [hne h1, h0 h1])]
          rw [truncateExcess_of_single _ _ d (splitOn_digits w hw), parseUnits, hsr3]
          change (parseUnitsCore false w d).getD 0 = _
          rw [parseUnitsCore_nodot false w d hw hne hd80 hm, Option.getD_some]
    · -- shape [w, f] : digits, dot, digits
      rw [decValueCore?, hsp] at hq
      change (if ((w ++ f).all isDigitCh && !(w ++ f).isEmpty) = true then
        some ((if neg then (-1 : ℚ) else 1) *
          ((digitsToNat w : ℚ) + (digitsToNat f : ℚ) / 10 ^ f.length))
        else none) = some q at hq
      by_cases hcond : ((w ++ f).all isDigitCh && !(w ++ f).isEmpty) = true
      swap
      · rw [if_neg hcond] at hq
        exact absurd hq (by simp)
      rw [if_pos hcond] at hq
      have hqv : q = (if neg then (-1 : ℚ) else 1) *
          ((digitsToNat w : ℚ) + (digitsToNat f : ℚ) / 10 ^ f.length) :=
        (Option.some.inj hq).symm
      rw [Bool.and_eq_true] at hcond
      have hwf := hcond.1
      rw [List.all_append, Bool.and_eq_true] at hwf
      have hw := hwf.1
      have hf := hwf.2
      have hnef : w ++ f ≠ [] := by
        intro h1
        rw [h1] at hcond
        exact absurd hcond.2 (by decide)
      have hrest : rest = w ++ '.' :: f := splitOn_eq_pair_imp rest w f hsp
      subst hrest
      have hvalA : f.length ≤ d → q * 10 ^ d = (if neg then (-1 : ℚ) else 1) *
          (((digitsToNat w : Int) * 10 ^ d +
            (digitsToNat f : Int) * 10 ^ (d - f.length) : Int) : ℚ) := by
        intro hld
        rw [hqv]
        have hpow : ((10 : ℚ)) ^ d = 10 ^ (d - f.length) * 10 ^ f.length := by
          rw [← pow_add]
          congr 1
          omega
        have h10 : ((10 : ℚ)) ^ f.length ≠ 0 := by positivity
        push_cast
        rw [hpow]
        field_simp
        ring_nf
      have hvalB : d < f.length → q * 10 ^ d = (if neg then (-1 : ℚ) else 1) *
          (((digitsToNat w * 10 ^ d + digitsToNat (f.take d) : ℕ) : ℚ) +
            (digitsToNat (f.drop d) : ℚ) / 10 ^ (f.length - d)) := by
        intro hlt
        rw [hqv]
        have hdecomp : digitsToNat f =
            digitsToNat (f.take d) * 10 ^ (f.length - d) + digitsToNat (f.drop d) := by
          conv_lhs => rw [← List.take_append_drop d f]
          rw [digitsToNat_append, List.length_drop]
        have hpow : ((10 : ℚ)) ^ f.length = 10 ^ (f.length - d) * 10 ^ d := by
          rw [← pow_add]
          congr 1
          omega
        have h10 : ((10 : ℚ)) ^ (f.length - d) ≠ 0 := by positivity
        have h10' : ((10 : ℚ)) ^ d ≠ 0 := by positivity
        rw [hdecomp]
        push_cast
        rw [hpow]
        field_simp
        ring_nf
      have hfr0 : 0 ≤ (digitsToNat (f.drop d) : ℚ) / 10 ^ (f.length - d) := by positivity
      have hfr1 : (digitsToNat (f.drop d) : ℚ) / 10 ^ (f.length - d) < 1 := by
        rw [div_lt_one (by positivity)]
        have hD := digitsToNat_lt (f.drop d) (by
          rw [List.all_eq_true] at hf ⊢
          exact fun c hc => hf c (List.drop_subset d f hc))
        rw [List.length_drop] at hD
        exact_mod_cast hD
      have hdot : '.' ∈ l := by
        cases neg
        · rw [splitSign_false_imp l _ hsr]
          exact List.mem_append.mpr (Or.inr (List.mem_cons_self _ _))
        · rw [splitSign_true_imp l _ hsr]
          exact List.mem_cons.mpr
            (Or.inr (List.mem_append.mpr (Or.inr (List.mem_cons_self _ _))))
      have hne0 : ¬(l = [] ∨ l = ['0']) := by
        rintro (h1 | h1)
        · rw [h1] at hdot
          exact absurd hdot (by decide)
        · rw [h1] at hdot
          exact absurd hdot (by decide)
      rw [parseTokenAmountL, if_neg hne0]
      have hslf : (w ++ '.' :: f).splitOn '.' = [w, f] := by
        rw [splitOn_digits_dot w f hw, splitOn_digits f hf]
      by_cases hlen : d < f.length
      swap
      · -- no truncation
        have hld : f.length ≤ d := le_of_not_lt hlen
        have hXnn : (0 : Int) ≤ (digitsToNat w : Int) * 10 ^ d +
            (digitsToNat f : Int) * 10 ^ (d - f.length) := by positivity
        have hmA : (digitsToNat w : Int) * 10 ^ d +
            (digitsToNat f : Int) * 10 ^ (d - f.length) < 2 ^ 511 := by
          have h1 : |q * 10 ^ d| = (((digitsToNat w : Int) * 10 ^ d +
              (digitsToNat f : Int) * 10 ^ (d - f.length) : Int) : ℚ) := by
            rw [hvalA hld, abs_sgnMul, abs_of_nonneg (by exact_mod_cast hXnn)]
          rw [habs10, h1] at hbound
          exact_mod_cast hbound
        rw [hvalA hld, truncQ_sgn_intCast]
        have htr : truncateExcess l d = l := by
          cases neg
          · have hl := splitSign_false_imp l _ hsr
            rw [hl, truncateExcess_of_pair _ w f d hslf, if_neg hlen]
          · have hl := splitSign_true_imp l _ hsr
            have hsl2 : ('-' :: (w ++ '.' :: f)).splitOn '.' = [('-' :: w), f] := by
              rw [splitOn_cons_dash, hslf]
              rfl
            rw [hl, truncateExcess_of_pair _ ('-' :: w) f d hsl2, if_neg hlen]
        rw [htr, parseUnits, hsr]
        change (parseUnitsCore neg (w ++ '.' :: f) d).getD 0 = _
        rw [parseUnitsCore_dot neg w f d hw hf hnef hld hd80 hmA, Option.getD_some]
      · -- truncation
        by_cases hB2 : w = [] ∧ d = 0
        · obtain ⟨hw0, hd0⟩ := hB2
          subst hw0
          subst hd0
          rw [pow_zero, mul_one]
          have hz : digitsToNat ([] : List Char) = 0 := rfl
          have hq0 : q = (if neg then (-1 : ℚ) else 1) *
              (((0 : ℕ) : ℚ) + (digitsToNat f : ℚ) / 10 ^ f.length) := by
            rw [hqv, hz]
          have hfr1' : (digitsToNat f : ℚ) / 10 ^ f.length < 1 := by
            rw [div_lt_one (by positivity)]
            exact_mod_cast digitsToNat_lt f hf
          rw [hq0, truncQ_sgn_natAdd_frac neg 0 _ (by positivity) hfr1']
          cases neg
          · have hl := splitSign_false_imp l _ hsr
            have hsl2 : (([] : List Char) ++ '.' :: f).splitOn '.' = [([] : List Char), f] := by
              rw [splitOn_digits_dot [] f (by rfl), splitOn_digits f hf]
            rw [hl, truncateExcess_of_pair _ [] f 0 hsl2, if_pos hlen]
            have hpu : parseUnits (([] : List Char) ++ '.' :: f.take 0) 0 = none := by
              show parseUnits ['.'] 0 = none
              decide
            rw [hpu]
            simp [applySign]
          · have hl := splitSign_true_imp l _ hsr
            have hsl2 : ('-' :: (([] : List Char) ++ '.' :: f)).splitOn '.' =
                [['-'], f] := by
              rw [splitOn_cons_dash, splitOn_digits_dot [] f (by rfl),
                splitOn_digits f hf]
              rfl
            rw [hl, truncateExcess_of_pair _ ['-'] f 0 hsl2, if_pos hlen]
            have hpu : parseUnits ((['-'] : List Char) ++ '.' :: f.take 0) 0 = none := by
              show parseUnits ['-', '.'] 0 = none
              decide
            rw [hpu]
            simp [applySign]
        · -- at least one digit survives in front of or after the dot
          have hne2 : w ++ f.take d ≠ [] := by
            intro habs
            rw [List.append_eq_nil] at habs
            rcases habs with ⟨hw0, ht0⟩
            rw [List.take_eq_nil_iff] at ht0
            rcases ht0 with hd0 | hf0
            · exact hB2 ⟨hw0, hd0⟩
            · rw [hf0] at hlen
              simp at hlen
          have htake_all : (f.take d).all isDigitCh = true := by
            rw [List.all_eq_true] at hf ⊢
            exact fun c hc => hf c (List.take_subset d f hc)
          have htklen : (f.take d).length = d := by
            rw [List.length_take]
            omega
          have hmB : (digitsToNat w : Int) * 10 ^ d +
              (digitsToNat (f.take d) : Int) * 10 ^ (d - (f.take d).length) <
                2 ^ 511 := by
            have h1 : |q * 10 ^ d| =
                (((digitsToNat w * 10 ^ d + digitsToNat (f.take d) : ℕ)) : ℚ) +
                  (digitsToNat (f.drop d) : ℚ) / 10 ^ (f.length - d) := by
              rw [hvalB hlen, abs_sgnMul, abs_of_nonneg (by positivity)]
            have h2 : (((digitsToNat w * 10 ^ d + digitsToNat (f.take d) : ℕ)) : ℚ) <
                2 ^ 511 := by
              rw [habs10, h1] at hbound
              calc (((digitsToNat w * 10 ^ d + digitsToNat (f.take d) : ℕ)) : ℚ)
                  ≤ (((digitsToNat w * 10 ^ d + digitsToNat (f.take d) : ℕ)) : ℚ) +
                    (digitsToNat (f.drop d) : ℚ) / 10 ^ (f.length - d) :=
                      le_add_of_nonneg_right hfr0
                _ < 2 ^ 511 := hbound
            rw [htklen, Nat.sub_self, pow_zero, mul_one]
            exact_mod_cast h2
          rw [hvalB hlen, truncQ_sgn_natAdd_frac neg _ _ hfr0 hfr1]
          have hcast : (((digitsToNat w * 10 ^ d + digitsToNat (f.take d) : ℕ)) : ℤ) =
              (digitsToNat w : ℤ) * 10 ^ d + (digitsToNat (f.take d) : ℤ) := by
            push_cast
            ring
          rw [hcast]
          have hexp : (10 : ℤ) ^ (d - (f.take d).length) = 1 := by
            rw [htklen, Nat.sub_self, pow_zero]
          cases neg
          · have hl := splitSign_false_imp l _ hsr
            rw [hl, truncateExcess_of_pair _ w f d hslf, if_pos hlen]
            have hss : splitSign (w ++ '.' :: f.take d) =
                (false, w ++ '.' :: f.take d) := by
              cases w with
              | nil => exact splitSign_dotlead _
              | cons c t =>
                rw [List.cons_append]
                rw [List.all_cons, Bool.and_eq_true] at hw
                exact splitSign_cons_ne _ _ (isDigitCh_ne_dash c hw.1)
            rw [parseUnits, hss]
            change (parseUnitsCore false (w ++ '.' :: f.take d) d).getD 0 = _
            rw [parseUnitsCore_dot false w (f.take d) d hw htake_all hne2
              (by rw [htklen]) hd80 hmB, Option.getD_some, hexp, mul_one]
          · have hl := splitSign_true_imp l _ hsr
            have hsl2 : ('-' :: (w ++ '.' :: f)).splitOn '.' = [('-' :: w), f] := by
              rw [splitOn_cons_dash, hslf]
              rfl
            rw [hl, truncateExcess_of_pair _ ('-' :: w) f d hsl2, if_pos hlen]
            have hconsapp : (('-' :: w) ++ '.' :: f.take d) =
                '-' :: (w ++ '.' :: f.take d) := by
              rw [List.cons_append]
            rw [hconsapp, parseUnits, splitSign_dash]
            change (parseUnitsCore true (w ++ '.' :: f.take d) d).getD 0 = _
            rw [parseUnitsCore_dot true w (f.take d) d hw htake_all hne2
              (by rw [htklen]) hd80 hmB, Option.getD_some, hexp, mul_one]
    · rw [decValueCore?, hsp] at hq
      change (none : Option ℚ) = some q at hq
      exact absurd hq (by simp)

/-- Witness for `parseTokenAmount_value_semantics`: the amount `1.239` at 2
decimals parses to the truncation of `1.239 * 100`, i.e. 123 (both library
bounds hold: 2 ≤ 80 and 1.239 * 100 < 2^511); and a 160-digit amount at 18
decimals overflows the signed 512-bit `FixedNumber` width, so the `catch`
returns 0. -/
theorem parseTokenAmount_value_semantics_witness :
    parseTokenAmount ("1.239") 2 = truncQ (((1239 : ℚ) / 1000) * 10 ^ 2) ∧
    parseTokenAmount ("1.239") 2 = 123 ∧
    parseTokenAmount
      ("1000000000000000000000000000000000000000000000000000000000000000000000000000000000000000000000000000000000000000000000000000000000000000000000000000000000000")
      18 = 0 := by
  refine ⟨?_, by decide, by decide⟩
  · refine parseTokenAmount_value_semantics.2.2.2.2 (("1.239").toList) 2
      ((1239 : ℚ) / 1000) ?_ (by norm_num) ?_
    have h1 : ("1.239").toList = ['1', '.', '2', '3', '9'] := rfl
    rw [h1, decValue?]
    have h2 : splitSign ['1', '.', '2', '3', '9'] = (false, ['1', '.', '2', '3', '9']) :=
      rfl
    rw [h2]
    change decValueCore? false ['1', '.', '2', '3', '9'] = _
    rw [decValueCore?]
    have h3 : (['1', '.', '2', '3', '9'] : List Char).splitOn '.' =
        [['1'], ['2', '3', '9']] := rfl
    rw [h3]
    change (if ((['1'] ++ ['2', '3', '9']).all isDigitCh &&
        !(['1'] ++ ['2', '3', '9']).isEmpty) = true
      then some ((if false then (-1 : ℚ) else 1) * ((digitsToNat ['1'] : ℚ) +
        (digitsToNat ['2', '3', '9'] : ℚ) / 10 ^ (['2', '3', '9'] : List Char).length))
      else none) = _
    rw [if_pos (by decide)]
    congr 1
    have hd1 : digitsToNat ['1'] = 1 := by decide
    have hd2 : digitsToNat ['2', '3', '9'] = 239 := by decide
    rw [hd1, hd2]
    norm_num
    rw [abs_of_nonneg (by norm_num)]
    norm_num

/-- C10: counterexample to the `unparseable inputs give 0` clause.  The string
`1.2a` is not parseable (`decValue?` and `parseUnits` both reject it), yet
`parseTokenAmount` at 1 decimal truncates away the offending `a` and returns
12 instead of 0. -/
theorem parseTokenAmount_repairs_unparseable :
    parseTokenAmount ("1.2a") 1 = 12 ∧
    decValue? (("1.2a").toList) = none ∧
    parseUnits (("1.2a").toList) 1 = none := by
  exact ⟨by decide, by decide, by decide⟩
